import Mathlib

/-!
An 8-bit CPU emulator: stack, data memory, ALU, control unit.

A shallow embedding of `cpu.hpp`, `stack.hpp`, `data_memory.hpp`,
`program_memory.hpp` and `control_unit.hpp`.

Conventions of the embedding.

* Machine integers are `Nat`; where the C++ narrows a value (an `int`
  expression stored in a `std::uint8_t` or `std::uint16_t`, a `std::size_t`
  subtraction) the embedding writes the `%` explicitly.
* `std::vector<T>` and `std::array<T, 32>` are `List Nat`.  A write
  `v[i] = x` is `List.set`, a read `v[i]` is `List.getD v i 0`.  An index
  outside the container is undefined behaviour in the C++; theorems that
  depend on such an access carry the bound as a hypothesis.
* A member function that mutates `*this` takes the object and returns the
  new object, paired with the return value when there is one.  A reference
  parameter that is written (`pop(T& retrieved_value)`) is passed in and
  returned.
* The enumeration `state` is kept as its underlying integer, because
  `return_from_interrupt` casts an arbitrary byte back to `state` and
  `run_next_state` has a `default:` branch for such values.
* The function-local `static std::uint8_t last_input` of
  `monitor_interrupts` is a field of the control unit that `reset` does not
  touch.
-/

namespace cpu

/-! ## cpu.hpp -/

def NOP : Nat := 0x00
def LDI : Nat := 0x01
def MOV : Nat := 0x02
def OUT : Nat := 0x03
def IN : Nat := 0x04
def STS : Nat := 0x05
def LDS : Nat := 0x06
def ORI : Nat := 0x07
def ANDI : Nat := 0x08
def XORI : Nat := 0x09
def OR : Nat := 0x0A
def AND : Nat := 0x0B
def XOR : Nat := 0x0C
def CLR : Nat := 0x0D
def INC : Nat := 0x0E
def DEC : Nat := 0x0F
def ADDI : Nat := 0x10
def SUBI : Nat := 0x11
def ADD : Nat := 0x12
def SUB : Nat := 0x13
def CPI : Nat := 0x14
def CP : Nat := 0x15
def JMP : Nat := 0x16
def CALL : Nat := 0x17
def RET : Nat := 0x18
def BREQ : Nat := 0x19
def BRNE : Nat := 0x1A
def BRGT : Nat := 0x1B
def BRGE : Nat := 0x1C
def BRLT : Nat := 0x1D
def BRLE : Nat := 0x1E
def PUSH : Nat := 0x1F
def POP : Nat := 0x20
def SEI : Nat := 0x21
def CLI : Nat := 0x22
def RETI : Nat := 0x23

def DDRB : Nat := 0x00
def PORTB : Nat := 0x01
def PINB : Nat := 0x02
def PCICR : Nat := 0x03
def PCMSK0 : Nat := 0x04

def PCIE0 : Nat := 0x00

def R0 : Nat := 0x00
def R1 : Nat := 0x01
def R16 : Nat := 0x10
def R17 : Nat := 0x11
def R24 : Nat := 0x18
def R31 : Nat := 0x1F

/-- The enumerators of `enum class state`, as their integer values. -/
def state.fetch : Nat := 0

/-- The enumerator `state::decode`. -/
def state.decode : Nat := 1

/-- The enumerator `state::execute`. -/
def state.execute : Nat := 2

/-- The wrap-around of `std::size_t` arithmetic: `n - 1` on 64 bits. -/
def size_t_pred (n : Nat) : Nat := (n + 2 ^ 64 - 1) % 2 ^ 64

/-- The template `set` at `T = std::uint8_t`: `reg |= (1 << bit)`. -/
def set (reg bit : Nat) : Nat := (reg ||| (1 <<< bit)) % 256

/-- The template `clr` at `T = std::uint8_t`: `reg &= ~(1 << bit)`, the
complement taken on the 32-bit `int` and the result narrowed to a byte. -/
def clr (reg bit : Nat) : Nat := (reg &&& (0xFFFFFFFF - (1 <<< bit) % 2 ^ 32)) % 256

/-- The template `read`: `data & (1 << bit)`.  The result is at most `data`,
so the conversion back to `T` changes nothing. -/
def read (data bit : Nat) : Nat := data &&& (1 <<< bit)

/-- The effect of `std::vector::resize (n, 0)`. -/
def resize (v : List Nat) (n : Nat) : List Nat :=
  v.take n ++ List.replicate (n - v.length) 0

/-! ## stack.hpp -/

/-- The members of `cpu::stack<std::uint8_t>`. -/
structure stack where
  data : List Nat
  sp : Nat
  stack_empty : Bool
deriving DecidableEq, Repr

namespace stack

/-- The constructor `stack(void)`: the default member initialisers. -/
def ctor : stack := { data := [], sp := 0, stack_empty := true }

def address_width (s : stack) : Nat := s.data.length

def reset (s : stack) : stack :=
  { data := s.data.map (fun _ => 0), sp := size_t_pred s.address_width, stack_empty := true }

def init (s : stack) (address_width : Nat) : stack :=
  { s with data := resize s.data address_width, sp := size_t_pred address_width }

/-- The function `push`: the new stack and the returned code. -/
def push (s : stack) (new_element : Nat) : stack × Nat :=
  if s.stack_empty then
    ({ s with data := s.data.set s.sp new_element, stack_empty := false }, 0)
  else if s.sp > 0 then
    ({ s with data := s.data.set (s.sp - 1) new_element, sp := s.sp - 1 }, 0)
  else
    (s, 1)

/-- The function `pop`: the new stack, the new value of the reference
parameter `retrieved_value`, and the returned code. -/
def pop (s : stack) (retrieved_value : Nat) : stack × Nat × Nat :=
  if s.stack_empty then (s, retrieved_value, 1)
  else if s.sp < size_t_pred s.address_width then
    ({ s with sp := s.sp + 1 }, s.data.getD s.sp 0, 0)
  else
    ({ s with stack_empty := true }, s.data.getD s.sp 0, 0)

def first_element (s : stack) : Nat := s.data.getD (size_t_pred s.address_width) 0

def last_element (s : stack) : Nat := s.data.getD s.sp 0

def num_elements (s : stack) : Nat := (size_t_pred s.address_width + 2 ^ 64 - s.sp) % 2 ^ 64

end stack

/-! ## data_memory.hpp -/

/-- The members of `cpu::data_memory<std::uint8_t>`. -/
structure data_memory where
  data : List Nat
deriving DecidableEq, Repr

namespace data_memory

/-- The constructor `data_memory(void)`. -/
def ctor : data_memory := { data := [] }

def address_width (m : data_memory) : Nat := m.data.length

def init (m : data_memory) (address_width : Nat) : data_memory :=
  { data := resize m.data address_width }

def reset (m : data_memory) : data_memory := { data := m.data.map (fun _ => 0) }

/-- The function `write`; the argument is narrowed to `std::uint16_t`. -/
def write (m : data_memory) (address new_element : Nat) : data_memory × Nat :=
  if address % 65536 < m.address_width then
    ({ data := m.data.set (address % 65536) new_element }, 0)
  else
    (m, 1)

/-- The function `read`; the argument is narrowed to `std::uint16_t`. -/
def read (m : data_memory) (address : Nat) : Nat :=
  if address % 65536 < m.address_width then m.data.getD (address % 65536) 0 else 0

end data_memory

/-! ## program_memory.hpp -/

/-- The members of `cpu::program_memory`. -/
structure program_memory where
  data : List Nat
deriving DecidableEq, Repr

namespace program_memory

def LED1 : Nat := 0
def BUTTON1 : Nat := 5
def led_enabled : Nat := 100

def RESET_vect : Nat := 0x00
def PCINT0_vect : Nat := 0x02
def ISR_vect_end : Nat := PCINT0_vect + 2
def ISR_PCINT0 : Nat := ISR_vect_end
def ISR_PCINT0_end : Nat := ISR_PCINT0 + 4
def ISR_end : Nat := ISR_PCINT0 + 5
def main : Nat := ISR_end
def main_loop : Nat := main + 1
def led_toggle : Nat := main_loop + 1
def led_toggle_end : Nat := led_toggle + 4
def led_on : Nat := led_toggle + 5
def led_off : Nat := led_on + 6
def setup : Nat := led_off + 6
def init_ports : Nat := setup
def init_interrupts : Nat := init_ports + 4
def init_globals : Nat := init_interrupts + 5
def button_is_pressed : Nat := init_globals + 3

def assemble (op_code op1 op2 : Nat) : Nat :=
  ((op_code <<< 16) ||| (op1 <<< 8) ||| op2) % 2 ^ 32

/-- The constructor `program_memory(void)` with the initialiser of `data`.
An omitted operand is the default `0x00`; `~(1 << LED1)` narrowed to a byte
is `0xFE`. -/
def ctor : program_memory :=
  { data :=
      [ assemble JMP main 0,
        assemble NOP 0 0,
        assemble JMP ISR_PCINT0 0,
        assemble NOP 0 0,
        assemble CALL button_is_pressed 0,
        assemble CPI R24 0x00,
        assemble BREQ ISR_PCINT0_end 0,
        assemble CALL led_toggle 0,
        assemble RETI 0 0,
        assemble CALL setup 0,
        assemble JMP main_loop 0,
        assemble LDS R16 led_enabled,
        assemble CPI R16 0x00,
        assemble BREQ led_on 0,
        assemble JMP led_off 0,
        assemble RET 0 0,
        assemble IN R16 PORTB,
        assemble ORI R16 (1 <<< LED1),
        assemble OUT PORTB R16,
        assemble LDI R16 0x01,
        assemble STS led_enabled R16,
        assemble JMP led_toggle_end 0,
        assemble IN R16 PORTB,
        assemble ANDI R16 0xFE,
        assemble OUT PORTB R16,
        assemble LDI R16 0x00,
        assemble STS led_enabled R16,
        assemble JMP led_toggle_end 0,
        assemble LDI R16 (1 <<< LED1),
        assemble OUT DDRB R16,
        assemble LDI R16 (1 <<< BUTTON1),
        assemble OUT PORTB R16,
        assemble SEI 0 0,
        assemble LDI R16 (1 <<< PCIE0),
        assemble OUT PCICR R16,
        assemble LDI R16 (1 <<< BUTTON1),
        assemble OUT PCMSK0 R16,
        assemble CLR R16 0,
        assemble STS led_enabled R16,
        assemble RET 0 0,
        assemble IN R24 PINB,
        assemble ANDI R24 (1 <<< BUTTON1),
        assemble RET 0 0 ] }

def address_width (m : program_memory) : Nat := m.data.length

def read (m : program_memory) (address : Nat) : Nat :=
  if address < m.address_width then m.data.getD address 0 else 0

end program_memory

/-! ## control_unit.hpp -/

/-- The data members of `cpu::control_unit`, and `last_input`, the static
local of `monitor_interrupts`. -/
structure control_unit where
  prog_mem : program_memory
  data_mem : data_memory
  stack : stack
  reg : List Nat
  pc : Nat
  mar : Nat
  ir : Nat
  sr : Nat
  op_code : Nat
  op1 : Nat
  op2 : Nat
  current_state : Nat
  last_input : Nat
deriving DecidableEq, Repr

namespace control_unit

def I : Nat := 4
def N : Nat := 3
def Z : Nat := 2
def V : Nat := 1
def C : Nat := 0

def NUM_REGISTERS : Nat := 32
def DATA_WIDTH : Nat := 8

/-- The constructor `control_unit(void)`: the default member initialisers,
then `data_mem.init(2000)` and `stack.init(256)`. -/
def ctor : control_unit :=
  { prog_mem := program_memory.ctor
    data_mem := data_memory.ctor.init 2000
    stack := stack.ctor.init 256
    reg := List.replicate NUM_REGISTERS 0
    pc := 0x00
    mar := 0x00
    ir := 0x00
    sr := 0x00
    op_code := 0x00
    op1 := 0x00
    op2 := 0x00
    current_state := state.fetch
    last_input := 0x00 }

def reset (cu : control_unit) : control_unit :=
  { cu with
    data_mem := cu.data_mem.reset
    stack := cu.stack.reset
    pc := 0x00
    mar := 0x00
    ir := 0x00
    sr := 0x00
    op_code := 0x00
    op1 := 0x00
    op2 := 0x00
    current_state := state.fetch
    reg := cu.reg.map (fun _ => 0x00) }

def interrupt_enabled (cu : control_unit) : Bool := read cu.sr I != 0

def negative (cu : control_unit) : Bool := read cu.sr N != 0

def equal (cu : control_unit) : Bool := read cu.sr Z != 0

def greater (cu : control_unit) : Bool := !cu.negative && !cu.equal

def lower (cu : control_unit) : Bool := cu.negative

/-- The loop `for (auto& i : reg) stack.push(i)`. -/
def push_registers (s : cpu.stack) (reg : List Nat) : cpu.stack :=
  reg.foldl (fun st i => (st.push i).1) s

def generate_interrupt (cu : control_unit) (interrupt_vector : Nat) : control_unit :=
  let s := (cu.stack.push cu.pc).1
  let s := (s.push cu.mar).1
  let s := (s.push cu.sr).1
  let s := (s.push ((cu.ir >>> 16) % 256)).1
  let s := (s.push ((cu.ir >>> 8) % 256)).1
  let s := (s.push (cu.ir % 256)).1
  let s := (s.push cu.op_code).1
  let s := (s.push cu.op1).1
  let s := (s.push cu.op2).1
  let s := (s.push (cu.current_state % 256)).1
  let s := push_registers s cu.reg
  { cu with stack := s, pc := interrupt_vector, current_state := state.fetch }

/-- The loop `for (auto& i : reg) stack.pop(i)`: the registers are visited
from index 0 upwards, each one being the reference parameter of one `pop`. -/
def pop_registers (s : cpu.stack) : List Nat → cpu.stack × List Nat
  | [] => (s, [])
  | i :: rest =>
    let r := s.pop i
    let t := pop_registers r.1 rest
    (t.1, r.2.1 :: t.2)

def return_from_interrupt (cu : control_unit) : control_unit :=
  let temp := 0x00
  let r := pop_registers cu.stack cu.reg
  let s := r.1
  let reg := r.2
  let p := s.pop temp
  let s := p.1
  let temp := p.2.1
  let current_state := temp
  let p := s.pop cu.op2
  let s := p.1
  let op2 := p.2.1
  let p := s.pop cu.op1
  let s := p.1
  let op1 := p.2.1
  let p := s.pop cu.op_code
  let s := p.1
  let op_code := p.2.1
  let p := s.pop temp
  let s := p.1
  let temp := p.2.1
  let ir := temp
  let p := s.pop temp
  let s := p.1
  let temp := p.2.1
  let ir := ir ||| (temp <<< 8)
  let p := s.pop temp
  let s := p.1
  let temp := p.2.1
  let ir := ir ||| (temp <<< 16)
  let p := s.pop cu.sr
  let s := p.1
  let sr := p.2.1
  let p := s.pop cu.mar
  let s := p.1
  let mar := p.2.1
  let p := s.pop cu.pc
  let s := p.1
  let pc := p.2.1
  { cu with
    stack := s, reg := reg, current_state := current_state, op2 := op2, op1 := op1,
    op_code := op_code, ir := ir, sr := sr, mar := mar, pc := pc }

/-- One turn of the loop body of `monitor_interrupts` for bit `i`. -/
def monitor_bit (last_input current_input : Nat) (cu : control_unit) (i : Nat) :
    control_unit :=
  if cu.data_mem.read PCMSK0 &&& (1 <<< i) ≠ 0 then
    if read last_input i ≠ read current_input i then
      cu.generate_interrupt program_memory.PCINT0_vect
    else cu
  else cu

def monitor_interrupts (cu : control_unit) : control_unit :=
  let current_input := cu.data_mem.read PINB
  let cu1 :=
    if cu.interrupt_enabled then
      if cu.data_mem.read PCICR &&& (1 <<< PCIE0) ≠ 0 then
        (List.range DATA_WIDTH).foldl (monitor_bit cu.last_input current_input) cu
      else cu
    else cu
  { cu1 with last_input := current_input }

def get_status_bits (result a b : Nat) : Nat :=
  let nzvc := 0x00
  let nzvc := if read result 7 ≠ 0 then set nzvc 3 else nzvc
  let nzvc := if result = 0 then set nzvc 2 else nzvc
  let nzvc :=
    if read a 7 = read b 7 then
      if read a 7 ≠ read result 7 then set nzvc 1 else nzvc
    else nzvc
  let nzvc := if read result 9 ≠ 0 then set nzvc 0 else nzvc
  nzvc

/-- The function `alu`: the control unit with the new `sr`, and the returned
byte.  The `int` value of each expression is narrowed to the 16-bit
`result`. -/
def alu (cu : control_unit) (a b : Nat) : control_unit × Nat :=
  let result :=
    if cu.op_code = ORI ∨ cu.op_code = OR then (a ||| b) % 65536
    else if cu.op_code = ANDI ∨ cu.op_code = AND then (a &&& b) % 65536
    else if cu.op_code = XORI ∨ cu.op_code = XOR then (a ^^^ b) % 65536
    else if cu.op_code = INC then (a + 1) % 65536
    else if cu.op_code = DEC then (a + 65536 - 1) % 65536
    else if cu.op_code = ADDI ∨ cu.op_code = ADD then (a + b) % 65536
    else if cu.op_code = SUBI ∨ cu.op_code = SUB then (a + 65536 - b) % 65536
    else if cu.op_code = CPI ∨ cu.op_code = CP then (a + 65536 - b) % 65536
    else 0x00
  ({ cu with sr := (cu.sr ||| get_status_bits result a b) % 256 }, result % 256)

def compare (cu : control_unit) (a b : Nat) : control_unit :=
  let result := (a + 65536 - b) % 65536
  { cu with sr := get_status_bits result a b }

/-- The block `case state::fetch:` of `run_next_state`. -/
def fetch_phase (cu : control_unit) : control_unit :=
  { cu with
    ir := cu.prog_mem.read cu.pc
    mar := cu.pc
    pc := (cu.pc + 1) % 256
    current_state := state.decode }

/-- The block `case state::decode:` of `run_next_state`. -/
def decode_phase (cu : control_unit) : control_unit :=
  { cu with
    op_code := (cu.ir >>> 16) % 256
    op1 := (cu.ir >>> 8) % 256
    op2 := cu.ir % 256
    current_state := state.execute }

/-- The `if ... else if ...` chain on `op_code` inside `case state::execute:`. -/
def execute_dispatch (cu : control_unit) : control_unit :=
  if cu.op_code = LDI then
    { cu with reg := cu.reg.set cu.op1 cu.op2 }
  else if cu.op_code = MOV then
    { cu with reg := cu.reg.set cu.op1 (cu.reg.getD cu.op2 0) }
  else if cu.op_code = OUT then
    { cu with data_mem := (cu.data_mem.write cu.op1 (cu.reg.getD cu.op2 0)).1 }
  else if cu.op_code = IN then
    { cu with reg := cu.reg.set cu.op1 (cu.data_mem.read cu.op2) }
  else if cu.op_code = STS then
    let m := (cu.data_mem.write cu.op1 (cu.reg.getD cu.op2 0)).1
    if cu.op2 < NUM_REGISTERS then
      { cu with data_mem := (m.write (cu.op1 + 1) (cu.reg.getD ((cu.op2 + 1) % 256) 0)).1 }
    else
      { cu with data_mem := m }
  else if cu.op_code = LDS then
    let reg := cu.reg.set cu.op1 (cu.data_mem.read cu.op2)
    if cu.op1 < NUM_REGISTERS then
      { cu with reg := reg.set ((cu.op1 + 1) % 256) (cu.data_mem.read (cu.op2 + 1)) }
    else
      { cu with reg := reg }
  else if cu.op_code = ORI ∨ cu.op_code = ANDI ∨ cu.op_code = XORI then
    let r := cu.alu (cu.reg.getD cu.op1 0) cu.op2
    { r.1 with reg := r.1.reg.set cu.op1 r.2 }
  else if cu.op_code = OR ∨ cu.op_code = AND ∨ cu.op_code = XOR then
    let r := cu.alu (cu.reg.getD cu.op1 0) (cu.reg.getD cu.op2 0)
    { r.1 with reg := r.1.reg.set cu.op1 r.2 }
  else if cu.op_code = CLR then
    { cu with reg := cu.reg.set cu.op1 0x00 }
  else if cu.op_code = INC ∨ cu.op_code = DEC then
    let r := cu.alu (cu.reg.getD cu.op1 0) 0x00
    { r.1 with reg := r.1.reg.set cu.op1 r.2 }
  else if cu.op_code = CPI then
    cu.compare (cu.reg.getD cu.op1 0) cu.op2
  else if cu.op_code = CP then
    cu.compare (cu.reg.getD cu.op1 0) (cu.reg.getD cu.op2 0)
  else if cu.op_code = JMP then
    { cu with pc := cu.op1 }
  else if cu.op_code = BREQ then
    if cu.equal then { cu with pc := cu.op1 } else cu
  else if cu.op_code = BRNE then
    if !cu.equal then { cu with pc := cu.op1 } else cu
  else if cu.op_code = BRGE then
    if cu.greater || cu.equal then { cu with pc := cu.op1 } else cu
  else if cu.op_code = BRGT then
    if cu.greater then { cu with pc := cu.op1 } else cu
  else if cu.op_code = BRLE then
    if cu.lower || cu.equal then { cu with pc := cu.op1 } else cu
  else if cu.op_code = BRLT then
    if cu.lower then { cu with pc := cu.op1 } else cu
  else if cu.op_code = CALL then
    { cu with stack := (cu.stack.push cu.pc).1, pc := cu.op1 }
  else if cu.op_code = RET then
    let p := cu.stack.pop cu.pc
    { cu with stack := p.1, pc := p.2.1 }
  else if cu.op_code = PUSH then
    { cu with stack := (cu.stack.push (cu.reg.getD cu.op1 0)).1 }
  else if cu.op_code = POP then
    let p := cu.stack.pop (cu.reg.getD cu.op1 0)
    { cu with stack := p.1, reg := cu.reg.set cu.op1 p.2.1 }
  else if cu.op_code = SEI then
    { cu with sr := set cu.sr I }
  else if cu.op_code = CLI then
    { cu with sr := clr cu.sr I }
  else if cu.op_code = RETI then
    cu.return_from_interrupt
  else
    cu

/-- The block `case state::execute:` of `run_next_state`. -/
def execute_phase (cu : control_unit) : control_unit :=
  { cu.execute_dispatch with current_state := state.fetch }

/-- The `switch (current_state)` of `run_next_state`. -/
def run_phase (cu : control_unit) : control_unit :=
  if cu.current_state = state.fetch then cu.fetch_phase
  else if cu.current_state = state.decode then cu.decode_phase
  else if cu.current_state = state.execute then cu.execute_phase
  else cu.reset

def run_next_state (cu : control_unit) : control_unit :=
  cu.run_phase.monitor_interrupts

/-- The statement `data_mem.write(PINB, input)` of `execute_selection`, the
one place where the environment sets the pin register. -/
def write_pinb (cu : control_unit) (input : Nat) : control_unit :=
  { cu with data_mem := (cu.data_mem.write PINB input).1 }

end control_unit

end cpu

namespace cpu

/-! ## The stack as a list -/

namespace stack

/-- The bytes held by the stack, the top of the stack first. -/
def content (s : stack) : List Nat :=
  if s.stack_empty then [] else s.data.drop s.sp

/-- The representation invariant of the stack: the pointer is inside the
buffer, the buffer length is a `std::size_t`, and an empty stack has its
pointer at the top-most slot. -/
def wf (s : stack) : Prop :=
  s.sp < s.data.length ∧ s.data.length < 2 ^ 64 ∧
    (s.stack_empty = true → s.sp + 1 = s.data.length)

instance (s : stack) : Decidable s.wf := by
  unfold wf; infer_instance

/-- The number of pushes that can still succeed. -/
def free_slots (s : stack) : Nat := s.data.length - s.content.length

/-- Pushes the elements of a list in order; returns the codes of the pushes. -/
def push_all (s : stack) : List Nat → stack × List Nat
  | [] => (s, [])
  | x :: xs =>
    let r := s.push x
    let t := push_all r.1 xs
    (t.1, r.2 :: t.2)

/-- Pops `n` times, each time into a fresh variable holding `0`; returns the
popped values and the codes of the pops. -/
def pop_n (s : stack) : Nat → stack × List Nat × List Nat
  | 0 => (s, [], [])
  | n + 1 =>
    let r := s.pop 0
    let t := pop_n r.1 n
    (t.1, r.2.1 :: t.2.1, r.2.2 :: t.2.2)

end stack

end cpu

namespace cpu

namespace control_unit

/-- The Interrupt Context Frame of the data model, in the order in which it
is pushed: pc, mar, status register, the three bytes of the instruction
register (most significant first), opcode, operand 1, operand 2, the
current phase, then the registers from index 0 upwards. -/
def context_frame (cu : control_unit) : List Nat :=
  [cu.pc, cu.mar, cu.sr, (cu.ir >>> 16) % 256, (cu.ir >>> 8) % 256, cu.ir % 256,
    cu.op_code, cu.op1, cu.op2, cu.current_state % 256] ++ cu.reg

/-- Bit `i` is enabled in PCMSK0 and differs between the previously sampled
input and the current input: the condition under which the loop of
`monitor_interrupts` calls `generate_interrupt` for bit `i`. -/
def pin_changed (m : data_memory) (last_input current_input i : Nat) : Bool :=
  decide (m.read PCMSK0 &&& (1 <<< i) ≠ 0) && decide (read last_input i ≠ read current_input i)

/-- The sample program run from construction through `setup`, up to the
first fetch at `main_loop` (14 instructions of three phases each). -/
def sample_after_setup : control_unit := Nat.iterate run_next_state 42 ctor

/-- A freshly constructed control unit in which only register 0 is non-zero. -/
def reg0_marked : control_unit := { ctor with reg := 1 :: List.replicate 31 0 }

/-- A control unit about to execute `SUB R16, R17` with `reg[R16] = 5` and
`reg[R17] = 3`. -/
def sub_r16_r17 : control_unit :=
  { ctor with
    current_state := state.execute, op_code := SUB, op1 := R16, op2 := R17
    reg := (ctor.reg.set R16 5).set R17 3 }

/-- A control unit with `op_code = ADD` and the given status register. -/
def add_with_sr (sr : Nat) : control_unit := { ctor with op_code := ADD, sr := sr }

/-- A control unit about to execute `CPI R16, 0x00` with interrupts enabled
(`sr = 0x10`). -/
def cpi_r16_interrupts_on : control_unit :=
  { ctor with
    current_state := state.execute, op_code := CPI, op1 := R16, op2 := 0x00, sr := 0x10 }

/-- The number of times the loop of `monitor_interrupts` calls
`generate_interrupt`: none unless the I flag and PCIE0 are both set, else
one for each bit of PCMSK0 whose pin differs from the sampled input. -/
def pending_interrupts (cu : control_unit) : Nat :=
  if cu.interrupt_enabled then
    if cu.data_mem.read PCICR &&& (1 <<< PCIE0) ≠ 0 then
      ((List.range DATA_WIDTH).filter
        (pin_changed cu.data_mem cu.last_input (cu.data_mem.read PINB))).length
    else 0
  else 0

/-- A freshly constructed control unit (I flag clear) whose pin register was
set to `0x20` after the last sampling. -/
def pin_changed_interrupts_off : control_unit := ctor.write_pinb 0x20

/-- A control unit in the middle of the sample program's ISR, with a phase
value outside the enumeration: every register, the data space and the stack
hold non-zero bytes. -/
def scrambled : control_unit :=
  { ctor with
    data_mem := { data := List.replicate 2000 0xAA }
    stack := { data := List.replicate 256 0x55, sp := 17, stack_empty := false }
    reg := List.replicate 32 0xFF
    pc := 7, mar := 6, ir := 0x190800, sr := 0x1F, op_code := BREQ, op1 := 8, op2 := 0
    current_state := 3
    last_input := 0x20 }

/-- A control unit about to execute `STS led_enabled, R16` with
`reg[R16] = 0x34` and `reg[R17] = 0x12`. -/
def sts_r16 : control_unit :=
  { ctor with
    current_state := state.execute, op_code := STS
    op1 := program_memory.led_enabled, op2 := R16
    reg := (ctor.reg.set R16 0x34).set R17 0x12 }

/-- A control unit about to execute the `CALL setup` at `main`: the fetch
has already advanced `pc` to `main_loop`. -/
def call_setup : control_unit :=
  { ctor with
    current_state := state.execute, op_code := CALL, op1 := program_memory.setup
    pc := program_memory.main_loop, mar := program_memory.main }

/-- The subscripts with which the STS and LDS branches of the execute case
index `reg`, in evaluation order: the operand register, then, under the
guard `op2 < NUM_REGISTERS` (STS) or `op1 < NUM_REGISTERS` (LDS), the
subscript `static_cast<std::uint8_t>(operand + 1)`. -/
def sts_lds_reg_indices (cu : control_unit) : List Nat :=
  if cu.op_code = STS then
    if cu.op2 < NUM_REGISTERS then [cu.op2, (cu.op2 + 1) % 256] else [cu.op2]
  else if cu.op_code = LDS then
    if cu.op1 < NUM_REGISTERS then [cu.op1, (cu.op1 + 1) % 256] else [cu.op1]
  else []

/-- A control unit about to execute `STS led_enabled, R31`. -/
def sts_r31 : control_unit :=
  { ctor with
    current_state := state.execute, op_code := STS
    op1 := program_memory.led_enabled, op2 := R31 }

/-- A control unit about to execute `LDS R31, led_enabled`. -/
def lds_r31 : control_unit :=
  { ctor with
    current_state := state.execute, op_code := LDS
    op1 := R31, op2 := program_memory.led_enabled }

/-- A control unit that has fetched the `JMP main_loop` at `main_loop` and
is about to decode it (phase decode, interrupts disabled). -/
def fetched_jmp : control_unit :=
  { ctor with
    current_state := state.decode
    pc := program_memory.main_loop + 1, mar := program_memory.main_loop
    ir := program_memory.assemble JMP program_memory.main_loop 0 }

/-- The control unit `fetched_jmp` after `generate_interrupt`, with the stack
as `generate_interrupt` left it, about to execute RETI. -/
def reti_after_fetched_jmp : control_unit :=
  { fetched_jmp.generate_interrupt program_memory.PCINT0_vect with
    current_state := state.execute, op_code := RETI }

end control_unit

/-- One call on a stack: `push(v)`, `pop(x)` or `reset()`. -/
inductive stack_op where
  | push (v : Nat)
  | pop
  | reset
deriving DecidableEq, Repr

namespace stack

/-- The stack after one call; a pop writes into a variable holding `0`. -/
def apply_op (s : stack) : stack_op → stack
  | stack_op.push v => (s.push v).1
  | stack_op.pop => (s.pop 0).1
  | stack_op.reset => s.reset

/-- The stack after a sequence of calls. -/
def run_ops (s : stack) (ops : List stack_op) : stack := ops.foldl apply_op s

/-- The number of elements held after one call, given the number `n` held
before it: a push that returns 0 adds one, a pop that returns 0 removes
one, a reset leaves none. -/
def count_op (s : stack) (n : Nat) : stack_op → Nat
  | stack_op.push v => if (s.push v).2 = 0 then n + 1 else n
  | stack_op.pop => if (s.pop 0).2.2 = 0 then n - 1 else n
  | stack_op.reset => 0

/-- The number of elements held after a sequence of calls that starts with
`n` elements held: successful pushes minus successful pops. -/
def held (s : stack) (n : Nat) : List stack_op → Nat
  | [] => n
  | op :: ops => held (s.apply_op op) (s.count_op n op) ops

end stack

namespace control_unit

/-- A control unit in phase decode whose register `i` holds `i`, with the
`JMP main_loop` fetched and the I flag set. -/
def regs_counted : control_unit :=
  { ctor with
    reg := List.range 32
    current_state := state.decode
    pc := program_memory.main_loop + 1, mar := program_memory.main_loop
    ir := program_memory.assemble JMP program_memory.main_loop 0
    sr := 0x10 }

/-- The list `f` written `n` times in a row. -/
def repeat_frame (f : List Nat) : Nat → List Nat
  | 0 => []
  | n + 1 => f ++ repeat_frame f n

/-- The control unit as `generate_interrupt` leaves its saved members: `pc`
at the pin-change vector and the phase fetch. -/
def at_vector (cu : control_unit) : control_unit :=
  { cu with pc := program_memory.PCINT0_vect, current_state := state.fetch }

/-- A control unit in phase execute at `pc = 11` with the I flag set, PCIE0
set, bits 4 and 5 enabled in PCMSK0 and both pins changed from 0 to 1 since
the last sampling. -/
def two_pins_changed : control_unit :=
  { ctor with
    sr := 0x10
    pc := program_memory.main_loop + 1
    current_state := state.execute
    data_mem := (((ctor.data_mem.write PCICR 0x01).1.write PCMSK0 0x30).1.write PINB 0x30).1 }

end control_unit

end cpu

namespace cpu

theorem size_t_pred_eq (n : Nat) (h1 : 1 ≤ n) (h2 : n < 2 ^ 64) : size_t_pred n = n - 1 := by
  unfold size_t_pred
  omega

namespace stack

theorem content_length_of_nonempty (s : stack) (h : s.stack_empty = false) :
    s.content.length = s.data.length - s.sp := by
  simp [content, h]

theorem wf_init (c : Nat) (h1 : 1 ≤ c) (h2 : c < 2 ^ 64) :
    (ctor.init c).wf ∧ (ctor.init c).content = [] ∧ (ctor.init c).data.length = c
      ∧ (ctor.init c).stack_empty = true ∧ (ctor.init c).sp = c - 1 := by
  have hp := size_t_pred_eq c h1 h2
  simp only [init, ctor, wf, content, resize, hp]
  simp
  omega

theorem push_ok (s : stack) (v : Nat) (hwf : s.wf) (hfree : s.content.length < s.data.length) :
    (s.push v).2 = 0 ∧ (s.push v).1.wf ∧ (s.push v).1.content = v :: s.content
      ∧ (s.push v).1.data.length = s.data.length := by
  obtain ⟨hsp, hlen, hemp⟩ := hwf
  cases he : s.stack_empty with
  | true =>
    have hsp1 := hemp he
    have hdrop : (s.data.set s.sp v).drop s.sp = [v] := by
      rw [List.drop_eq_getElem_cons (by simpa using hsp)]
      simp
      omega
    simp [push, he, wf, content, hdrop]
    omega
  | false =>
    have hcl := content_length_of_nonempty s he
    have hpos : 0 < s.sp := by omega
    have hdrop : (s.data.set (s.sp - 1) v).drop (s.sp - 1) = v :: s.data.drop s.sp := by
      rw [List.drop_eq_getElem_cons (by simp; omega)]
      have h1 : s.sp - 1 + 1 = s.sp := by omega
      rw [h1, List.drop_set_of_lt _ _ (by omega)]
      simp
    simp [push, he, hpos, wf, content, hdrop]
    omega

theorem push_full (s : stack) (v : Nat) (hwf : s.wf) (hfull : s.content.length = s.data.length) :
    s.push v = (s, 1) := by
  obtain ⟨hsp, hlen, hemp⟩ := hwf
  cases he : s.stack_empty with
  | true => simp [content, he] at hfull; omega
  | false =>
    have hcl := content_length_of_nonempty s he
    have h0 : s.sp = 0 := by omega
    simp [push, he, h0]

theorem pop_ok (s : stack) (r v : Nat) (rest : List Nat) (hwf : s.wf)
    (hc : s.content = v :: rest) :
    (s.pop r).2 = (v, 0) ∧ (s.pop r).1.wf ∧ (s.pop r).1.content = rest
      ∧ (s.pop r).1.data = s.data := by
  obtain ⟨hsp, hlen, hemp⟩ := hwf
  cases he : s.stack_empty with
  | true => simp [content, he] at hc
  | false =>
    have hp := size_t_pred_eq s.data.length (by omega) hlen
    simp only [content, he] at hc
    rw [List.drop_eq_getElem_cons hsp] at hc
    simp only [Bool.false_eq_true, if_false, List.cons.injEq] at hc
    obtain ⟨hv, hrest⟩ := hc
    have hget : s.data[s.sp]?.getD 0 = v := by
      simp [hsp, hv]
    by_cases hlt : s.sp < s.data.length - 1
    · simp [pop, he, address_width, hp, hlt, wf, content, hget, hrest]
      omega
    · have hnil : rest = [] := by
        rw [← hrest]
        apply List.drop_eq_nil_of_le
        omega
      simp [pop, he, address_width, hp, hlt, wf, content, hget, hnil]
      omega

theorem pop_empty (s : stack) (r : Nat) (h : s.stack_empty = true) : s.pop r = (s, r, 1) := by
  simp [pop, h]

theorem push_all_ok (xs : List Nat) : ∀ (s : stack), s.wf →
    s.content.length + xs.length ≤ s.data.length →
    (s.push_all xs).2 = List.replicate xs.length 0 ∧ (s.push_all xs).1.wf
      ∧ (s.push_all xs).1.content = xs.reverse ++ s.content
      ∧ (s.push_all xs).1.data.length = s.data.length := by
  induction xs with
  | nil => intro s hwf _; simp [push_all, hwf]
  | cons x xs ih =>
    intro s hwf hlen
    simp only [List.length_cons] at hlen
    obtain ⟨h0, hwf1, hc1, hl1⟩ := push_ok s x hwf (by omega)
    obtain ⟨hcodes, hwf2, hc2, hl2⟩ := ih (s.push x).1 hwf1 (by
      rw [hc1, hl1]; simp only [List.length_cons]; omega)
    refine ⟨?_, hwf2, ?_, ?_⟩
    · simp [push_all, h0, hcodes, List.replicate_succ]
    · simp [push_all, hc2, hc1]
    · simp [push_all, hl2, hl1]

theorem pop_n_ok (ys : List Nat) : ∀ (s : stack) (rest : List Nat), s.wf →
    s.content = ys ++ rest →
    (s.pop_n ys.length).2.1 = ys ∧ (s.pop_n ys.length).2.2 = List.replicate ys.length 0
      ∧ (s.pop_n ys.length).1.wf ∧ (s.pop_n ys.length).1.content = rest
      ∧ (s.pop_n ys.length).1.data = s.data := by
  induction ys with
  | nil => intro s rest hwf hc; simpa [pop_n, hwf] using hc
  | cons y ys ih =>
    intro s rest hwf hc
    obtain ⟨hv, hwf1, hc1, hd1⟩ := pop_ok s 0 y (ys ++ rest) hwf (by simpa using hc)
    obtain ⟨hvals, hcodes, hwf2, hc2, hd2⟩ := ih (s.pop 0).1 rest hwf1 hc1
    have hv1 : (s.pop 0).2.1 = y := by rw [hv]
    have hv2 : (s.pop 0).2.2 = 0 := by rw [hv]
    refine ⟨?_, ?_, ?_, ?_, ?_⟩
    · simp [pop_n, hv1, hvals]
    · simp [pop_n, hv2, hcodes, List.replicate_succ]
    · simpa [pop_n] using hwf2
    · simpa [pop_n] using hc2
    · simp [pop_n, hd2, hd1]

theorem stack_empty_of_content_nil (s : stack) (hwf : s.wf) (h : s.content = []) :
    s.stack_empty = true := by
  cases he : s.stack_empty with
  | true => rfl
  | false =>
    have := content_length_of_nonempty s he
    rw [h] at this
    have := hwf.1
    simp at *
    omega

end stack

end cpu

namespace cpu

/-! ## Stack contracts -/

/-- C2: on a stack initialised empty with capacity `c >= 1`, pushing a list
`xs` of at most `c` elements in order makes every push return 0; popping
`xs.length` times then makes every pop return 0 and yields the elements of
`xs` in reverse order, and the stack is empty again (flag set, pointer at the
top-most slot). -/
theorem stack_push_pop_lifo (c : Nat) (xs : List Nat) (hc : 1 ≤ c) (hc64 : c < 2 ^ 64)
    (hn : xs.length ≤ c) :
    ((stack.ctor.init c).push_all xs).2 = List.replicate xs.length 0
      ∧ ((((stack.ctor.init c).push_all xs).1).pop_n xs.length).2.2
          = List.replicate xs.length 0
      ∧ ((((stack.ctor.init c).push_all xs).1).pop_n xs.length).2.1 = xs.reverse
      ∧ ((((stack.ctor.init c).push_all xs).1).pop_n xs.length).1.stack_empty = true
      ∧ ((((stack.ctor.init c).push_all xs).1).pop_n xs.length).1.sp = c - 1 := by
  obtain ⟨hwf0, hc0, hl0, -, -⟩ := stack.wf_init c hc hc64
  obtain ⟨hcodes, hwf1, hc1, hl1⟩ :=
    stack.push_all_ok xs (stack.ctor.init c) hwf0 (by rw [hc0, hl0]; simpa using hn)
  rw [hc0] at hc1
  have hpop := stack.pop_n_ok xs.reverse ((stack.ctor.init c).push_all xs).1 [] hwf1
    (by simpa using hc1)
  rw [List.length_reverse] at hpop
  obtain ⟨hvals, hpcodes, hwf2, hc2, hd2⟩ := hpop
  have hemp := stack.stack_empty_of_content_nil _ hwf2 hc2
  refine ⟨hcodes, hpcodes, hvals, hemp, ?_⟩
  have h := hwf2.2.2 hemp
  have hlen : ((((stack.ctor.init c).push_all xs).1).pop_n xs.length).1.data.length = c := by
    rw [hd2, hl1, hl0]
  omega

theorem stack_push_pop_lifo_witness :
    ((stack.ctor.init 3).push_all [7, 8, 9]).2 = [0, 0, 0]
      ∧ ((((stack.ctor.init 3).push_all [7, 8, 9]).1).pop_n 3).2.2 = [0, 0, 0]
      ∧ ((((stack.ctor.init 3).push_all [7, 8, 9]).1).pop_n 3).2.1 = [9, 8, 7]
      ∧ ((((stack.ctor.init 3).push_all [7, 8, 9]).1).pop_n 3).1.stack_empty = true
      ∧ ((((stack.ctor.init 3).push_all [7, 8, 9]).1).pop_n 3).1.sp = 3 - 1 :=
  stack_push_pop_lifo 3 [7, 8, 9] (by decide) (by decide) (by decide)

/-- C3: on a stack initialised empty with capacity `c >= 1`, `c` consecutive
pushes all return 0; one more push returns the overflow code 1 and leaves
the whole stack (buffer, `sp`, empty flag) unchanged, and the next pop
returns the last value pushed successfully, with code 0. -/
theorem stack_overflow_unchanged (c : Nat) (xs : List Nat) (v r : Nat) (hc : 1 ≤ c)
    (hc64 : c < 2 ^ 64) (hlen : xs.length = c) :
    ((stack.ctor.init c).push_all xs).2 = List.replicate c 0
      ∧ (((stack.ctor.init c).push_all xs).1).push v
          = (((stack.ctor.init c).push_all xs).1, 1)
      ∧ ((((((stack.ctor.init c).push_all xs).1).push v).1).pop r).2
          = (xs.getLastD 0, 0) := by
  obtain ⟨hwf0, hc0, hl0, -, -⟩ := stack.wf_init c hc hc64
  obtain ⟨hcodes, hwf1, hc1, hl1⟩ :=
    stack.push_all_ok xs (stack.ctor.init c) hwf0 (by rw [hc0, hl0]; simp [hlen])
  rw [hc0, List.append_nil] at hc1
  have hfull := stack.push_full ((stack.ctor.init c).push_all xs).1 v hwf1
    (by rw [hc1, hl1, hl0]; simp [hlen])
  refine ⟨by rw [hcodes, hlen], hfull, ?_⟩
  rw [hfull]
  rcases List.eq_nil_or_concat xs with h | ⟨ys, x, h⟩
  · subst h; simp at hlen; omega
  · have hc2 : (((stack.ctor.init c).push_all xs).1).content = x :: ys.reverse := by
      rw [hc1, h]; simp
    have := (stack.pop_ok _ r x ys.reverse hwf1 hc2).1
    rw [this, h]
    simp

theorem stack_overflow_unchanged_witness :
    ((stack.ctor.init 2).push_all [5, 6]).2 = List.replicate 2 0
      ∧ (((stack.ctor.init 2).push_all [5, 6]).1).push 7
          = (((stack.ctor.init 2).push_all [5, 6]).1, 1)
      ∧ ((((((stack.ctor.init 2).push_all [5, 6]).1).push 7).1).pop 0).2
          = ([5, 6].getLastD 0, 0) :=
  stack_overflow_unchanged 2 [5, 6] 7 0 (by decide) (by decide) (by decide)

end cpu

namespace cpu

namespace control_unit

/-! ## Interrupt entry -/

theorem push_registers_eq (reg : List Nat) : ∀ s : cpu.stack,
    push_registers s reg = (s.push_all reg).1 := by
  induction reg with
  | nil => intro s; rfl
  | cons x xs ih =>
    intro s
    simp only [push_registers, List.foldl_cons, stack.push_all] at ih ⊢
    exact ih _

theorem generate_interrupt_stack (cu : control_unit) (v : Nat) :
    (cu.generate_interrupt v).stack = (cu.stack.push_all cu.context_frame).1 := by
  simp [generate_interrupt, context_frame, push_registers_eq, stack.push_all]

theorem generate_interrupt_data_mem (cu : control_unit) (v : Nat) :
    (cu.generate_interrupt v).data_mem = cu.data_mem := rfl

theorem monitor_bit_eq (l c : Nat) (cu : control_unit) (i : Nat) :
    monitor_bit l c cu i =
      if pin_changed cu.data_mem l c i then cu.generate_interrupt program_memory.PCINT0_vect
      else cu := by
  unfold monitor_bit pin_changed
  by_cases h1 : cu.data_mem.read PCMSK0 &&& (1 <<< i) ≠ 0 <;>
    by_cases h2 : read l i ≠ read c i <;> simp [h1, h2]

theorem monitor_fold_count (l c : Nat) (L : List Nat) : ∀ cu : control_unit,
    L.foldl (monitor_bit l c) cu =
      Nat.iterate (fun s => s.generate_interrupt program_memory.PCINT0_vect)
        (L.filter (pin_changed cu.data_mem l c)).length cu := by
  induction L with
  | nil => intro cu; rfl
  | cons i L ih =>
    intro cu
    rw [List.foldl_cons, ih, monitor_bit_eq]
    by_cases h : pin_changed cu.data_mem l c i = true
    · simp [h, generate_interrupt_data_mem]
    · simp [h]

theorem filter_singleton (p : Nat → Bool) (i : Nat) : ∀ L : List Nat, L.Nodup → i ∈ L →
    p i = true → (∀ j ∈ L, j ≠ i → p j = false) → L.filter p = [i] := by
  intro L
  induction L with
  | nil => intro _ hmem; simp at hmem
  | cons a L ih =>
    intro hnd hmem hp hq
    rw [List.nodup_cons] at hnd
    by_cases ha : a = i
    · subst ha
      have hnone : L.filter p = [] := by
        rw [List.filter_eq_nil_iff]
        intro j hj
        have hne : j ≠ a := fun h => hnd.1 (h ▸ hj)
        simp [hq j (List.mem_cons_of_mem _ hj) hne]
      simp [List.filter_cons, hp, hnone]
    · have hmem2 : i ∈ L := by
        rcases List.mem_cons.1 hmem with h | h
        · exact absurd h.symm ha
        · exact h
      have hpa : p a = false := hq a (List.mem_cons_self _ _) ha
      rw [List.filter_cons, hpa]
      simpa using ih hnd.2 hmem2 hp (fun j hj hne => hq j (List.mem_cons_of_mem _ hj) hne)

end control_unit

end cpu

namespace cpu

namespace control_unit

theorem generate_interrupt_frame (cu : control_unit) (v : Nat) (hwf : cu.stack.wf)
    (hreg : cu.reg.length = 32) (hfree : 42 ≤ cu.stack.free_slots) :
    (cu.generate_interrupt v).stack.wf
      ∧ (cu.generate_interrupt v).stack.content = cu.context_frame.reverse ++ cu.stack.content
      ∧ (cu.generate_interrupt v).stack.data.length = cu.stack.data.length := by
  have hlen : cu.context_frame.length = 42 := by simp [context_frame, hreg]
  have hfit : cu.stack.content.length + cu.context_frame.length ≤ cu.stack.data.length := by
    unfold stack.free_slots at hfree
    omega
  obtain ⟨-, h1, h2, h3⟩ := stack.push_all_ok cu.context_frame cu.stack hwf hfit
  rw [generate_interrupt_stack]
  exact ⟨h1, h2, h3⟩

theorem monitor_interrupts_one_bit (cu : control_unit) (i : Nat)
    (hI : read cu.sr I ≠ 0) (hpcie : cu.data_mem.read PCICR &&& (1 <<< PCIE0) ≠ 0)
    (hi : i < 8)
    (hbit : pin_changed cu.data_mem cu.last_input (cu.data_mem.read PINB) i = true)
    (honly : ∀ j, j < 8 → j ≠ i →
      pin_changed cu.data_mem cu.last_input (cu.data_mem.read PINB) j = false) :
    cu.monitor_interrupts =
      { cu.generate_interrupt program_memory.PCINT0_vect with
        last_input := cu.data_mem.read PINB } := by
  have hfilter : (List.range DATA_WIDTH).filter
      (pin_changed cu.data_mem cu.last_input (cu.data_mem.read PINB)) = [i] := by
    apply filter_singleton _ i _ (List.nodup_range _) (by simpa [DATA_WIDTH] using hi) hbit
    intro j hj hne
    exact honly j (by simpa [DATA_WIDTH] using hj) hne
  have hen : cu.interrupt_enabled = true := by simpa [interrupt_enabled] using hI
  simp only [monitor_interrupts, hen, if_true, hpcie, ne_eq, not_false_eq_true,
    monitor_fold_count, hfilter, List.length_singleton, Function.iterate_one]

end control_unit

/-! ## Pin-change interrupt delivery -/

open control_unit

/-- C5: in the fetch or decode phase, with the I flag set, PCIE0 set in PCICR,
exactly one bit `i` that is enabled in PCMSK0 differing between PINB and the
previously sampled input, and at least 42 free stack slots, one
`run_next_state` call ends with `pc = PCINT0_vect = 0x02`, phase fetch, and
the stack holding exactly 42 more bytes: the context frame of the state as
the phase's own work left it, on top of the previous content. -/
theorem pin_change_interrupt_taken (cu : control_unit) (i : Nat)
    (hphase : cu.current_state = state.fetch ∨ cu.current_state = state.decode)
    (hI : read cu.sr I ≠ 0)
    (hpcie : read (cu.data_mem.read PCICR) PCIE0 ≠ 0)
    (hi : i < 8)
    (hbit : pin_changed cu.data_mem cu.last_input (cu.data_mem.read PINB) i = true)
    (honly : ∀ j, j < 8 → j ≠ i →
      pin_changed cu.data_mem cu.last_input (cu.data_mem.read PINB) j = false)
    (hwf : cu.stack.wf) (hreg : cu.reg.length = 32) (hfree : 42 ≤ cu.stack.free_slots) :
    cu.run_next_state.pc = program_memory.PCINT0_vect
      ∧ program_memory.PCINT0_vect = 0x02
      ∧ cu.run_next_state.current_state = state.fetch
      ∧ cu.run_next_state.stack.content = cu.run_phase.context_frame.reverse ++ cu.stack.content
      ∧ cu.run_next_state.stack.content.length = cu.stack.content.length + 42 := by
  have hmid : cu.run_phase.sr = cu.sr ∧ cu.run_phase.data_mem = cu.data_mem
      ∧ cu.run_phase.last_input = cu.last_input ∧ cu.run_phase.stack = cu.stack
      ∧ cu.run_phase.reg = cu.reg := by
    rcases hphase with h | h
    · simp [run_phase, h, fetch_phase]
    · simp [run_phase, h, decode_phase, state.decode, state.fetch]
  obtain ⟨hsr, hdm, hli, hst, hrg⟩ := hmid
  have hmon := monitor_interrupts_one_bit cu.run_phase i (by rw [hsr]; exact hI)
    (by rw [hdm]; exact hpcie) hi (by rw [hdm, hli]; exact hbit)
    (by rw [hdm, hli]; exact honly)
  obtain ⟨-, hcont, -⟩ := generate_interrupt_frame cu.run_phase program_memory.PCINT0_vect
    (by rw [hst]; exact hwf) (by rw [hrg]; exact hreg) (by rw [hst]; exact hfree)
  have hlen : cu.run_phase.context_frame.length = 42 := by
    simp [context_frame, hrg, hreg]
  have hstack : cu.run_next_state.stack
      = (cu.run_phase.generate_interrupt program_memory.PCINT0_vect).stack := by
    simp [run_next_state, hmon]
  refine ⟨?_, rfl, ?_, ?_, ?_⟩
  · simp [run_next_state, hmon, generate_interrupt]
  · simp [run_next_state, hmon, generate_interrupt]
  · rw [hstack, hcont, hst]
  · rw [hstack, hcont, hst, List.length_append, List.length_reverse, hlen]
    omega

theorem pin_change_interrupt_taken_witness :
    (sample_after_setup.pc = program_memory.main_loop
      ∧ sample_after_setup.data_mem.read PINB = 0x00
      ∧ (sample_after_setup.write_pinb 0x20).data_mem.read PINB = 0x20
      ∧ (sample_after_setup.write_pinb 0x20).last_input = 0x00
      ∧ (sample_after_setup.write_pinb 0x20).current_state = state.fetch)
    ∧ (sample_after_setup.write_pinb 0x20).run_next_state.pc = program_memory.PCINT0_vect
      ∧ program_memory.PCINT0_vect = 0x02
      ∧ (sample_after_setup.write_pinb 0x20).run_next_state.current_state = state.fetch
      ∧ (sample_after_setup.write_pinb 0x20).run_next_state.stack.content
          = (sample_after_setup.write_pinb 0x20).run_phase.context_frame.reverse
              ++ (sample_after_setup.write_pinb 0x20).stack.content
      ∧ (sample_after_setup.write_pinb 0x20).run_next_state.stack.content.length
          = (sample_after_setup.write_pinb 0x20).stack.content.length + 42 :=
  ⟨by decide!,
    pin_change_interrupt_taken (sample_after_setup.write_pinb 0x20) 5 (by decide!) (by decide!)
      (by decide!) (by decide!) (by decide!) (by decide!) (by decide!) (by decide!)
      (by decide!)⟩

end cpu

namespace cpu

/-! ## Underflow -/

open control_unit

theorem set_getD_self (l : List Nat) (i d : Nat) : l.set i (l[i]?.getD d) = l := by
  by_cases h : i < l.length
  · apply List.ext_getElem (by simp)
    intro n h1 h2
    rw [List.getElem_set]
    split
    · next hin => subst hin; simp [h]
    · rfl
  · rw [List.set_eq_of_length_le (by omega)]

/-- C4: on a stack whose empty flag is set, `pop` returns the underflow code 1
and changes nothing: the stack is returned as it was and the reference
parameter keeps its value.  Hence executing RET on such a stack leaves `pc`
and the stack unchanged, and executing POP leaves the register file and the
stack unchanged. -/
theorem pop_underflow_unchanged (s : stack) (r : Nat) (h : s.stack_empty = true) :
    s.pop r = (s, r, 1)
      ∧ (∀ cu : control_unit, cu.stack = s → cu.op_code = RET →
          cu.execute_phase.pc = cu.pc ∧ cu.execute_phase.stack = cu.stack)
      ∧ (∀ cu : control_unit, cu.stack = s → cu.op_code = POP →
          cu.execute_phase.reg = cu.reg ∧ cu.execute_phase.stack = cu.stack) := by
  refine ⟨stack.pop_empty s r h, ?_, ?_⟩
  · intro cu hs hop
    subst hs
    simp [execute_phase, execute_dispatch, hop, stack.pop_empty _ _ h, RET, LDI, MOV, OUT, IN,
      STS, LDS, ORI, ANDI, XORI, OR, AND, XOR, CLR, INC, DEC, CPI, CP, JMP, BREQ, BRNE, BRGE,
      BRGT, BRLE, BRLT, CALL]
  · intro cu hs hop
    subst hs
    simp [execute_phase, execute_dispatch, hop, stack.pop_empty _ _ h, RET, LDI, MOV, OUT, IN,
      STS, LDS, ORI, ANDI, XORI, OR, AND, XOR, CLR, INC, DEC, CPI, CP, JMP, BREQ, BRNE, BRGE,
      BRGT, BRLE, BRLT, CALL, PUSH, POP, set_getD_self]

theorem pop_underflow_unchanged_witness :
    (stack.ctor.init 4).pop 9 = (stack.ctor.init 4, 9, 1)
      ∧ (∀ cu : control_unit, cu.stack = stack.ctor.init 4 → cu.op_code = RET →
          cu.execute_phase.pc = cu.pc ∧ cu.execute_phase.stack = cu.stack)
      ∧ (∀ cu : control_unit, cu.stack = stack.ctor.init 4 → cu.op_code = POP →
          cu.execute_phase.reg = cu.reg ∧ cu.execute_phase.stack = cu.stack) :=
  pop_underflow_unchanged (stack.ctor.init 4) 9 (by decide)

end cpu

namespace cpu

/-! ## Evaluations at boundary inputs -/

open control_unit

/-- C1: at a freshly constructed control unit with `reg[0] = 1` (256 free
stack slots, `ir = 0`, phase fetch), `generate_interrupt 2` followed by
`return_from_interrupt` restores pc, mar, sr, ir, the opcode, both operands
and the phase, but returns the register file in reversed index order: the 1
of `reg[0]` ends in `reg[31]` and `reg[0]` is 0. -/
theorem interrupt_roundtrip_register_order :
    42 ≤ reg0_marked.stack.free_slots ∧ reg0_marked.ir < 2 ^ 24
      ∧ reg0_marked.current_state = state.fetch
      ∧ reg0_marked.reg.getD 0 0 = 1
      ∧ ((reg0_marked.generate_interrupt 2).return_from_interrupt).reg.getD 0 0 = 0
      ∧ ((reg0_marked.generate_interrupt 2).return_from_interrupt).reg
          = List.replicate 31 0 ++ [1]
      ∧ ((reg0_marked.generate_interrupt 2).return_from_interrupt).pc = reg0_marked.pc
      ∧ ((reg0_marked.generate_interrupt 2).return_from_interrupt).mar = reg0_marked.mar
      ∧ ((reg0_marked.generate_interrupt 2).return_from_interrupt).sr = reg0_marked.sr
      ∧ ((reg0_marked.generate_interrupt 2).return_from_interrupt).ir = reg0_marked.ir
      ∧ ((reg0_marked.generate_interrupt 2).return_from_interrupt).op_code
          = reg0_marked.op_code
      ∧ ((reg0_marked.generate_interrupt 2).return_from_interrupt).op1 = reg0_marked.op1
      ∧ ((reg0_marked.generate_interrupt 2).return_from_interrupt).op2 = reg0_marked.op2
      ∧ ((reg0_marked.generate_interrupt 2).return_from_interrupt).current_state
          = reg0_marked.current_state := by
  decide!

/-- C6: executing `SUB R16, R17` with `reg[R16] = 5` and `reg[R17] = 3` leaves
`reg[R16] = 5` and the status register 0: the opcode chain of the execute
phase has no branch for SUB (nor for ADDI, SUBI, ADD), although `alu` computes
the difference 2 for this opcode. -/
theorem sub_has_no_execute_branch :
    sub_r16_r17.current_state = state.execute ∧ sub_r16_r17.op_code = SUB
      ∧ sub_r16_r17.reg.getD R16 0 = 5 ∧ sub_r16_r17.reg.getD R17 0 = 3
      ∧ sub_r16_r17.run_next_state.reg.getD R16 0 = 5
      ∧ sub_r16_r17.run_next_state.reg = sub_r16_r17.reg
      ∧ sub_r16_r17.run_next_state.sr = sub_r16_r17.sr
      ∧ (sub_r16_r17.alu 5 3).2 = 2 := by
  decide!

/-- C7: with `op_code = ADD` and the Z flag set beforehand (`sr = 0x04`),
`alu 1 1` returns 2 and leaves Z set, although `get_status_bits` of this
operation has Z clear: `alu` ORs the new flags into `sr`. -/
theorem alu_keeps_stale_zero_flag :
    ((add_with_sr 0x04).alu 1 1).2 = 2
      ∧ get_status_bits ((1 + 1) % 65536) 1 1 = 0
      ∧ read (get_status_bits ((1 + 1) % 65536) 1 1) Z = 0
      ∧ ((add_with_sr 0x04).alu 1 1).1.sr = 0x04
      ∧ read ((add_with_sr 0x04).alu 1 1).1.sr Z ≠ 0 := by
  decide!

/-- C8: executing `CPI R16, 0x00` with interrupts enabled (`sr = 0x10`,
`reg[R16] = 0`) ends with `sr = 0x04`: Z is set and the I flag is cleared,
because `compare` assigns the whole status register. -/
theorem compare_clears_interrupt_flag :
    cpi_r16_interrupts_on.current_state = state.execute
      ∧ cpi_r16_interrupts_on.op_code = CPI
      ∧ read cpi_r16_interrupts_on.sr I ≠ 0
      ∧ cpi_r16_interrupts_on.run_next_state.sr = 0x04
      ∧ read cpi_r16_interrupts_on.run_next_state.sr I = 0 := by
  decide!

/-- C9: with `op_code = ADD` and `sr = 0`, `alu 0x80 0x80` leaves the carry
flag clear although the sum 256 exceeds 255: the flag is taken from bit 9 of
the 16-bit result, and 256 has only bit 8 set. -/
theorem alu_add_carry_at_0x80 :
    255 < 0x80 + 0x80
      ∧ read ((add_with_sr 0).alu 0x80 0x80).1.sr C = 0
      ∧ read ((0x80 + 0x80) % 65536) 8 ≠ 0
      ∧ read ((0x80 + 0x80) % 65536) 9 = 0 := by
  decide!

/-- C10: with `op_code = ADD` and `sr = 0`, `alu 0x80 0x80` returns the byte 0
and leaves the zero flag clear: the flag is computed from the 16-bit result
256, not from the returned byte. -/
theorem alu_add_zero_flag_at_0x80 :
    ((add_with_sr 0).alu 0x80 0x80).2 = 0
      ∧ (0x80 + 0x80) % 256 = 0
      ∧ read ((add_with_sr 0).alu 0x80 0x80).1.sr Z = 0 := by
  decide!

end cpu

namespace cpu

namespace control_unit

/-! ## The interrupt monitor in general -/

theorem iterate_generate_interrupt_frame (v n : Nat) : ∀ cu : control_unit,
    (Nat.iterate (fun s => s.generate_interrupt v) n cu).reg = cu.reg
      ∧ (Nat.iterate (fun s => s.generate_interrupt v) n cu).data_mem = cu.data_mem
      ∧ (Nat.iterate (fun s => s.generate_interrupt v) n cu).sr = cu.sr
      ∧ (Nat.iterate (fun s => s.generate_interrupt v) n cu).prog_mem = cu.prog_mem
      ∧ (Nat.iterate (fun s => s.generate_interrupt v) n cu).last_input = cu.last_input := by
  induction n with
  | zero => intro cu; simp
  | succ n ih =>
    intro cu
    rw [Function.iterate_succ_apply]
    obtain ⟨h1, h2, h3, h4, h5⟩ := ih (cu.generate_interrupt v)
    exact ⟨h1, h2, h3, h4, h5⟩

theorem iterate_generate_interrupt_phase (v n : Nat) (hn : 0 < n) (cu : control_unit) :
    (Nat.iterate (fun s => s.generate_interrupt v) n cu).current_state = state.fetch
      ∧ (Nat.iterate (fun s => s.generate_interrupt v) n cu).pc = v := by
  obtain ⟨m, rfl⟩ : ∃ m, n = m + 1 := ⟨n - 1, by omega⟩
  rw [Function.iterate_succ_apply']
  exact ⟨rfl, rfl⟩

theorem monitor_interrupts_eq (cu : control_unit) :
    cu.monitor_interrupts =
      { Nat.iterate (fun s => s.generate_interrupt program_memory.PCINT0_vect)
          cu.pending_interrupts cu with
        last_input := cu.data_mem.read PINB } := by
  unfold monitor_interrupts pending_interrupts
  by_cases hen : cu.interrupt_enabled = true
  · by_cases hp : cu.data_mem.read PCICR &&& (1 <<< PCIE0) ≠ 0
    · simp only [hen, if_true, if_pos hp, monitor_fold_count]
    · simp [hen, hp]
  · simp [hen]

theorem monitor_interrupts_frame (cu : control_unit) :
    cu.monitor_interrupts.reg = cu.reg ∧ cu.monitor_interrupts.data_mem = cu.data_mem
      ∧ cu.monitor_interrupts.sr = cu.sr ∧ cu.monitor_interrupts.prog_mem = cu.prog_mem
      ∧ cu.monitor_interrupts.last_input = cu.data_mem.read PINB := by
  rw [monitor_interrupts_eq]
  obtain ⟨h1, h2, h3, h4, -⟩ :=
    iterate_generate_interrupt_frame program_memory.PCINT0_vect cu.pending_interrupts cu
  exact ⟨h1, h2, h3, h4, rfl⟩

theorem monitor_interrupts_none (cu : control_unit) (h : cu.pending_interrupts = 0) :
    cu.monitor_interrupts = { cu with last_input := cu.data_mem.read PINB } := by
  rw [monitor_interrupts_eq, h]
  rfl

theorem pending_interrupts_eq_zero (cu : control_unit)
    (h : read cu.sr I = 0 ∨ read (cu.data_mem.read PCICR) PCIE0 = 0
      ∨ ∀ j, j < 8 → pin_changed cu.data_mem cu.last_input (cu.data_mem.read PINB) j = false) :
    cu.pending_interrupts = 0 := by
  unfold pending_interrupts
  rcases h with h | h | h
  · simp [interrupt_enabled, h]
  · have h2 : cu.data_mem.read PCICR &&& (1 <<< PCIE0) = 0 := h
    simp [h2]
  · have hf : (List.range DATA_WIDTH).filter
        (pin_changed cu.data_mem cu.last_input (cu.data_mem.read PINB)) = [] := by
      rw [List.filter_eq_nil_iff]
      intro j hj
      simp [h j (by simpa [DATA_WIDTH] using hj)]
    simp [hf]

end control_unit

end cpu

namespace cpu

namespace control_unit

theorem monitor_interrupts_phase (cu : control_unit) :
    cu.monitor_interrupts.current_state
      = if cu.pending_interrupts = 0 then cu.current_state else state.fetch := by
  by_cases h : cu.pending_interrupts = 0
  · rw [monitor_interrupts_none cu h, if_pos h]
  · rw [monitor_interrupts_eq, if_neg h]
    exact (iterate_generate_interrupt_phase _ _ (by omega) cu).1

theorem pin_changed_same_input (m : data_memory) (x j : Nat) : pin_changed m x x j = false := by
  simp [pin_changed]

end control_unit

/-! ## Phase transitions and the quiet monitor -/

open control_unit

/-- C19: one `run_next_state` call takes fetch to decode and decode to execute
when the monitor takes no interrupt, takes execute to fetch for every opcode
(whatever `op_code` holds, RETI and unknown opcodes included), and ends in
fetch whenever the monitor takes an interrupt; after any step, from any
phase value, the phase is fetch, decode or execute. -/
theorem run_next_state_phase (cu : control_unit) :
    (cu.current_state = state.fetch → cu.run_phase.pending_interrupts = 0 →
        cu.run_next_state.current_state = state.decode)
      ∧ (cu.current_state = state.decode → cu.run_phase.pending_interrupts = 0 →
        cu.run_next_state.current_state = state.execute)
      ∧ (cu.current_state = state.execute → cu.run_next_state.current_state = state.fetch)
      ∧ (0 < cu.run_phase.pending_interrupts → cu.run_next_state.current_state = state.fetch)
      ∧ (cu.run_next_state.current_state = state.fetch
          ∨ cu.run_next_state.current_state = state.decode
          ∨ cu.run_next_state.current_state = state.execute) := by
  have hmon := monitor_interrupts_phase cu.run_phase
  have hf : cu.current_state = state.fetch → cu.run_phase.current_state = state.decode := by
    intro h; simp [run_phase, h, fetch_phase]
  have hd : cu.current_state = state.decode → cu.run_phase.current_state = state.execute := by
    intro h; simp [run_phase, h, decode_phase, state.decode, state.fetch]
  have he : cu.current_state = state.execute → cu.run_phase.current_state = state.fetch := by
    intro h; simp [run_phase, h, execute_phase, state.decode, state.fetch, state.execute]
  have hr : cu.current_state ≠ state.fetch → cu.current_state ≠ state.decode →
      cu.current_state ≠ state.execute → cu.run_phase.current_state = state.fetch := by
    intro h0 h1 h2; simp [run_phase, h0, h1, h2, reset]
  unfold run_next_state
  rw [hmon]
  refine ⟨?_, ?_, ?_, ?_, ?_⟩
  · intro h hp; rw [if_pos hp]; exact hf h
  · intro h hp; rw [if_pos hp]; exact hd h
  · intro h; split
    · exact he h
    · rfl
  · intro hp; rw [if_neg (by omega)]
  · split
    · by_cases h0 : cu.current_state = state.fetch
      · exact Or.inr (Or.inl (hf h0))
      · by_cases h1 : cu.current_state = state.decode
        · exact Or.inr (Or.inr (hd h1))
        · by_cases h2 : cu.current_state = state.execute
          · exact Or.inl (he h2)
          · exact Or.inl (hr h0 h1 h2)
    · exact Or.inl rfl

/-- C20: when the I flag is clear, or PCIE0 is clear in PCICR, or no bit
enabled in PCMSK0 differs between PINB and the previously sampled input,
`monitor_interrupts` takes no interrupt: it returns the control unit with
only the sampled input replaced by the current PINB byte, so pc, phase, sr,
registers, stack and data space are unchanged.  A following monitor call
that sees the same PINB byte takes no interrupt either, whatever the flags
are by then. -/
theorem monitor_takes_no_interrupt (cu : control_unit)
    (h : read cu.sr I = 0 ∨ read (cu.data_mem.read PCICR) PCIE0 = 0
      ∨ ∀ j, j < 8 → pin_changed cu.data_mem cu.last_input (cu.data_mem.read PINB) j = false) :
    cu.monitor_interrupts = { cu with last_input := cu.data_mem.read PINB }
      ∧ cu.monitor_interrupts.pc = cu.pc
      ∧ cu.monitor_interrupts.current_state = cu.current_state
      ∧ cu.monitor_interrupts.sr = cu.sr
      ∧ cu.monitor_interrupts.reg = cu.reg
      ∧ cu.monitor_interrupts.stack = cu.stack
      ∧ cu.monitor_interrupts.data_mem = cu.data_mem
      ∧ cu.monitor_interrupts.last_input = cu.data_mem.read PINB
      ∧ (∀ later : control_unit, later.last_input = cu.monitor_interrupts.last_input →
          later.data_mem.read PINB = cu.data_mem.read PINB →
          later.monitor_interrupts = { later with last_input := later.data_mem.read PINB }) := by
  have hnone := monitor_interrupts_none cu (pending_interrupts_eq_zero cu h)
  refine ⟨hnone, ?_, ?_, ?_, ?_, ?_, ?_, ?_, ?_⟩
  · rw [hnone]
  · rw [hnone]
  · rw [hnone]
  · rw [hnone]
  · rw [hnone]
  · rw [hnone]
  · rw [hnone]
  · intro later hl hp
    rw [hnone] at hl
    apply monitor_interrupts_none
    apply pending_interrupts_eq_zero
    right; right
    intro j _
    rw [hl, hp]
    exact pin_changed_same_input _ _ _

theorem monitor_takes_no_interrupt_witness :
    (read pin_changed_interrupts_off.sr I = 0
      ∧ pin_changed_interrupts_off.data_mem.read PINB = 0x20
      ∧ pin_changed_interrupts_off.last_input = 0x00)
    ∧ pin_changed_interrupts_off.monitor_interrupts
        = { pin_changed_interrupts_off with
            last_input := pin_changed_interrupts_off.data_mem.read PINB }
      ∧ pin_changed_interrupts_off.monitor_interrupts.pc = pin_changed_interrupts_off.pc
      ∧ pin_changed_interrupts_off.monitor_interrupts.current_state
          = pin_changed_interrupts_off.current_state
      ∧ pin_changed_interrupts_off.monitor_interrupts.sr = pin_changed_interrupts_off.sr
      ∧ pin_changed_interrupts_off.monitor_interrupts.reg = pin_changed_interrupts_off.reg
      ∧ pin_changed_interrupts_off.monitor_interrupts.stack = pin_changed_interrupts_off.stack
      ∧ pin_changed_interrupts_off.monitor_interrupts.data_mem
          = pin_changed_interrupts_off.data_mem
      ∧ pin_changed_interrupts_off.monitor_interrupts.last_input
          = pin_changed_interrupts_off.data_mem.read PINB
      ∧ (∀ later : control_unit,
          later.last_input = pin_changed_interrupts_off.monitor_interrupts.last_input →
          later.data_mem.read PINB = pin_changed_interrupts_off.data_mem.read PINB →
          later.monitor_interrupts = { later with last_input := later.data_mem.read PINB }) :=
  ⟨by decide!, monitor_takes_no_interrupt pin_changed_interrupts_off (Or.inl (by decide!))⟩

end cpu

namespace cpu

/-! ## Data space, ALU results, reset -/

open control_unit

/-- C17: for a data memory of any size and a 16-bit address `a`: when `a` is
not below the size, `write` returns 1 and returns the memory unchanged, and
`read` returns 0; when `a` is below the size, `write` returns 0, keeps the
size, a following `read a` returns the written byte, and every other cell
(and so every read at another address) is unchanged. -/
theorem data_memory_write_read (m : data_memory) (a v : Nat) (ha : a < 65536) :
    (m.address_width ≤ a → m.write a v = (m, 1) ∧ m.read a = 0)
      ∧ (a < m.address_width →
          (m.write a v).2 = 0
            ∧ (m.write a v).1.read a = v
            ∧ (m.write a v).1.address_width = m.address_width
            ∧ (∀ b, b ≠ a → (m.write a v).1.data.getD b 0 = m.data.getD b 0)
            ∧ (∀ b, b < 65536 → b ≠ a → (m.write a v).1.read b = m.read b)) := by
  have hmod : a % 65536 = a := Nat.mod_eq_of_lt ha
  constructor
  · intro h
    have h2 : ¬ a < m.address_width := by omega
    simp [data_memory.write, data_memory.read, hmod, h2]
  · intro h
    have hlen : a < m.data.length := h
    refine ⟨?_, ?_, ?_, ?_, ?_⟩
    · simp [data_memory.write, hmod, h]
    · simp [data_memory.write, data_memory.read, data_memory.address_width, hmod, hlen]
    · simp [data_memory.write, data_memory.address_width, hmod, hlen]
    · intro b hb
      simp [data_memory.write, hmod, h, List.getElem?_set, Ne.symm hb]
    · intro b hb hne
      have hbmod : b % 65536 = b := Nat.mod_eq_of_lt hb
      simp [data_memory.write, data_memory.read, data_memory.address_width, hmod, hlen, hbmod,
        List.getElem?_set, Ne.symm hne]

theorem data_memory_write_read_witness :
    ((data_memory.ctor.init 2000).address_width ≤ 100 →
        (data_memory.ctor.init 2000).write 100 7 = (data_memory.ctor.init 2000, 1)
          ∧ (data_memory.ctor.init 2000).read 100 = 0)
      ∧ (100 < (data_memory.ctor.init 2000).address_width →
          ((data_memory.ctor.init 2000).write 100 7).2 = 0
            ∧ ((data_memory.ctor.init 2000).write 100 7).1.read 100 = 7
            ∧ ((data_memory.ctor.init 2000).write 100 7).1.address_width
                = (data_memory.ctor.init 2000).address_width
            ∧ (∀ b, b ≠ 100 → ((data_memory.ctor.init 2000).write 100 7).1.data.getD b 0
                = (data_memory.ctor.init 2000).data.getD b 0)
            ∧ (∀ b, b < 65536 → b ≠ 100 → ((data_memory.ctor.init 2000).write 100 7).1.read b
                = (data_memory.ctor.init 2000).read b)) :=
  data_memory_write_read (data_memory.ctor.init 2000) 100 7 (by decide)

/-- C11: for all 8-bit `a` and `b` and any control unit (so any prior status
register), `alu a b` returns `(a + b) mod 256` when `op_code` is ADD or ADDI,
and `(a - b) mod 256` when `op_code` is SUB or SUBI. -/
theorem alu_add_sub_result (cu : control_unit) (a b : Nat) (ha : a < 256) (hb : b < 256) :
    ((cu.op_code = ADD ∨ cu.op_code = ADDI) → (cu.alu a b).2 = (a + b) % 256)
      ∧ ((cu.op_code = SUB ∨ cu.op_code = SUBI) →
          (cu.alu a b).2 = (a + 256 - b) % 256
            ∧ (((cu.alu a b).2 : Nat) : Int) = ((a : Int) - (b : Int)) % 256) := by
  constructor
  · intro h
    rcases h with h | h <;>
      simp [alu, h, ADD, ADDI, ORI, OR, ANDI, AND, XORI, XOR, INC, DEC] <;> omega
  · intro h
    have hval : (cu.alu a b).2 = (a + 256 - b) % 256 := by
      rcases h with h | h <;>
        simp [alu, h, SUB, SUBI, ADD, ADDI, ORI, OR, ANDI, AND, XORI, XOR, INC, DEC] <;> omega
    refine ⟨hval, ?_⟩
    rw [hval]
    omega

theorem alu_add_sub_result_witness :
    (((add_with_sr 0x1F).op_code = ADD ∨ (add_with_sr 0x1F).op_code = ADDI) →
        ((add_with_sr 0x1F).alu 200 100).2 = (200 + 100) % 256)
      ∧ (((add_with_sr 0x1F).op_code = SUB ∨ (add_with_sr 0x1F).op_code = SUBI) →
          ((add_with_sr 0x1F).alu 200 100).2 = (200 + 256 - 100) % 256
            ∧ ((((add_with_sr 0x1F).alu 200 100).2 : Nat) : Int)
                = (((200 : Nat) : Int) - ((100 : Nat) : Int)) % 256) :=
  alu_add_sub_result (add_with_sr 0x1F) 200 100 (by decide) (by decide)

end cpu

namespace cpu

open control_unit

theorem map_zero_eq_replicate (l : List Nat) : l.map (fun _ => 0) = List.replicate l.length 0 := by
  induction l with
  | nil => rfl
  | cons x xs ih => simp [List.replicate_succ, ih]

theorem resize_nil (n : Nat) : resize [] n = List.replicate n 0 := by
  simp [resize]

theorem read_replicate_zero (n a : Nat) :
    data_memory.read { data := List.replicate n 0 } a = 0 := by
  unfold data_memory.read
  split
  · next h =>
    have h2 : a % 65536 < n := by simpa [data_memory.address_width] using h
    simp [List.getElem?_replicate, h2]
  · rfl

/-- C16: for every control unit with 32 registers, a 2000-byte data space and
a 256-byte stack, `reset` yields the constructed state in every member: all
registers 0, pc, mar, ir, sr, op_code, op1 and op2 zero, phase fetch, every
data-space byte 0, every stack byte 0 with `sp = 255` and the empty flag
set; and `run_next_state` on a phase value that is none of fetch, decode and
execute yields the same members. -/
theorem reset_yields_constructed_state (cu : control_unit) (hreg : cu.reg.length = 32)
    (hdm : cu.data_mem.data.length = 2000) (hst : cu.stack.data.length = 256) :
    cu.reset = { ctor with prog_mem := cu.prog_mem, last_input := cu.last_input }
      ∧ cu.reset.reg = List.replicate 32 0
      ∧ cu.reset.pc = 0 ∧ cu.reset.mar = 0 ∧ cu.reset.ir = 0 ∧ cu.reset.sr = 0
      ∧ cu.reset.op_code = 0 ∧ cu.reset.op1 = 0 ∧ cu.reset.op2 = 0
      ∧ cu.reset.current_state = state.fetch
      ∧ cu.reset.data_mem.data = List.replicate 2000 0
      ∧ cu.reset.stack = { data := List.replicate 256 0, sp := 255, stack_empty := true }
      ∧ (cu.current_state ≠ state.fetch → cu.current_state ≠ state.decode →
          cu.current_state ≠ state.execute →
          cu.run_next_state = { ctor with prog_mem := cu.prog_mem, last_input := 0 }
            ∧ cu.run_next_state = { cu.reset with last_input := 0 }) := by
  have hd : cu.data_mem.reset = data_memory.ctor.init 2000 := by
    simp only [data_memory.reset, data_memory.init, data_memory.ctor, resize_nil,
      map_zero_eq_replicate, hdm]
  have hs : cu.stack.reset = stack.ctor.init 256 := by
    simp only [stack.reset, stack.init, stack.ctor, stack.address_width, resize_nil,
      map_zero_eq_replicate, hst]
  have hr : cu.reg.map (fun _ => 0x00) = List.replicate NUM_REGISTERS 0 := by
    rw [map_zero_eq_replicate, hreg]
    rfl
  have hreset : cu.reset = { ctor with prog_mem := cu.prog_mem, last_input := cu.last_input } := by
    simp only [reset, hd, hs, hr, ctor]
  have hpred : size_t_pred 256 = 255 := by decide
  have hstack : stack.ctor.init 256
      = { data := List.replicate 256 0, sp := 255, stack_empty := true } := by
    simp only [stack.init, stack.ctor, resize_nil, hpred]
  have hdata : (data_memory.ctor.init 2000).data = List.replicate 2000 0 := by
    simp only [data_memory.init, data_memory.ctor, resize_nil]
  refine ⟨hreset, ?_, ?_, ?_, ?_, ?_, ?_, ?_, ?_, ?_, ?_, ?_, ?_⟩
  · rw [hreset]; rfl
  · rfl
  · rfl
  · rfl
  · rfl
  · rfl
  · rfl
  · rfl
  · rfl
  · rw [hreset]; exact hdata
  · rw [hreset]; exact hstack
  · intro h0 h1 h2
    have hphase : cu.run_phase = cu.reset := by simp [run_phase, h0, h1, h2]
    have hpin : cu.reset.data_mem.read PINB = 0 := by
      have hmem : cu.reset.data_mem = { data := List.replicate 2000 0 } := by
        rw [hreset]
        exact congrArg data_memory.mk hdata
      rw [hmem]
      exact read_replicate_zero _ _
    have hmon := monitor_interrupts_none cu.reset
      (pending_interrupts_eq_zero cu.reset (Or.inl (by simp [reset, read])))
    rw [hpin] at hmon
    have h1 : cu.run_next_state = { cu.reset with last_input := 0 } := by
      rw [run_next_state, hphase, hmon]
    refine ⟨?_, h1⟩
    rw [h1, hreset]

theorem reset_yields_constructed_state_witness :
    (scrambled.current_state = 3 ∧ scrambled.sr = 0x1F
      ∧ scrambled.reg = List.replicate 32 0xFF)
    ∧ scrambled.reset = { ctor with prog_mem := scrambled.prog_mem,
                                    last_input := scrambled.last_input }
      ∧ scrambled.reset.reg = List.replicate 32 0
      ∧ scrambled.reset.pc = 0 ∧ scrambled.reset.mar = 0 ∧ scrambled.reset.ir = 0
      ∧ scrambled.reset.sr = 0
      ∧ scrambled.reset.op_code = 0 ∧ scrambled.reset.op1 = 0 ∧ scrambled.reset.op2 = 0
      ∧ scrambled.reset.current_state = state.fetch
      ∧ scrambled.reset.data_mem.data = List.replicate 2000 0
      ∧ scrambled.reset.stack
          = { data := List.replicate 256 0, sp := 255, stack_empty := true }
      ∧ (scrambled.current_state ≠ state.fetch → scrambled.current_state ≠ state.decode →
          scrambled.current_state ≠ state.execute →
          scrambled.run_next_state
              = { ctor with prog_mem := scrambled.prog_mem, last_input := 0 }
            ∧ scrambled.run_next_state = { scrambled.reset with last_input := 0 }) :=
  ⟨by decide!,
    reset_yields_constructed_state scrambled (by decide!) (by decide!) (by decide!)⟩

end cpu

namespace cpu

namespace control_unit

/-! ## Compare -/

theorem get_status_bits_zero_flag (result a b : Nat) :
    read (get_status_bits result a b) Z ≠ 0 ↔ result = 0 := by
  simp only [get_status_bits]
  split_ifs <;> constructor <;> intro hh <;>
    first
      | assumption
      | contradiction
      | decide

theorem run_next_state_frame (cu : control_unit) :
    cu.run_next_state.reg = cu.run_phase.reg
      ∧ cu.run_next_state.data_mem = cu.run_phase.data_mem
      ∧ cu.run_next_state.sr = cu.run_phase.sr :=
  ⟨(monitor_interrupts_frame cu.run_phase).1, (monitor_interrupts_frame cu.run_phase).2.1,
    (monitor_interrupts_frame cu.run_phase).2.2.1⟩

theorem run_phase_execute (cu : control_unit) (h : cu.current_state = state.execute) :
    cu.run_phase = cu.execute_phase := by
  simp [run_phase, h, state.execute, state.fetch, state.decode]

theorem compare_zero_flag (cu : control_unit) (a b : Nat) (ha : a < 256) (hb : b < 256) :
    (cu.compare a b).reg = cu.reg ∧ (read (cu.compare a b).sr Z ≠ 0 ↔ a = b) := by
  refine ⟨rfl, ?_⟩
  simp only [compare]
  rw [get_status_bits_zero_flag]
  omega

end control_unit

end cpu

namespace cpu

open control_unit

/-- C14: in the execute phase, with registers and operand holding bytes and
the register indices below 32, one `run_next_state` call on CPI d,k leaves
the register file unchanged and ends with the Z flag set exactly when
`reg[d] = k`; likewise on CP d,s with `reg[d] = reg[s]`. -/
theorem compare_sets_zero_flag (cu : control_unit) (hst : cu.current_state = state.execute)
    (hreg : cu.reg.length = 32) (hbytes : ∀ x ∈ cu.reg, x < 256)
    (hd : cu.op1 < 32) (hk : cu.op2 < 256) :
    (cu.op_code = CPI →
        cu.run_next_state.reg = cu.reg
          ∧ (read cu.run_next_state.sr Z ≠ 0 ↔ cu.reg.getD cu.op1 0 = cu.op2))
      ∧ (cu.op_code = CP → cu.op2 < 32 →
        cu.run_next_state.reg = cu.reg
          ∧ (read cu.run_next_state.sr Z ≠ 0
              ↔ cu.reg.getD cu.op1 0 = cu.reg.getD cu.op2 0)) := by
  obtain ⟨hr, -, hs⟩ := run_next_state_frame cu
  rw [run_phase_execute cu hst] at hr hs
  have ha : cu.reg.getD cu.op1 0 < 256 := by
    rw [List.getD_eq_getElem _ _ (by omega)]
    exact hbytes _ (List.getElem_mem _)
  constructor
  · intro hop
    have hx : cu.execute_dispatch = cu.compare (cu.reg.getD cu.op1 0) cu.op2 := by
      simp [execute_dispatch, hop, CPI, LDI, MOV, OUT, IN, STS, LDS, ORI, ANDI, XORI, OR, AND,
        XOR, CLR, INC, DEC]
    obtain ⟨h1, h2⟩ := compare_zero_flag cu (cu.reg.getD cu.op1 0) cu.op2 ha hk
    rw [hr, hs]
    simp only [execute_phase, hx]
    exact ⟨h1, h2⟩
  · intro hop hs2
    have hb : cu.reg.getD cu.op2 0 < 256 := by
      rw [List.getD_eq_getElem _ _ (by omega)]
      exact hbytes _ (List.getElem_mem _)
    have hx : cu.execute_dispatch
        = cu.compare (cu.reg.getD cu.op1 0) (cu.reg.getD cu.op2 0) := by
      simp [execute_dispatch, hop, CP, CPI, LDI, MOV, OUT, IN, STS, LDS, ORI, ANDI, XORI, OR,
        AND, XOR, CLR, INC, DEC]
    obtain ⟨h1, h2⟩ :=
      compare_zero_flag cu (cu.reg.getD cu.op1 0) (cu.reg.getD cu.op2 0) ha hb
    rw [hr, hs]
    simp only [execute_phase, hx]
    exact ⟨h1, h2⟩

theorem compare_sets_zero_flag_witness :
    (cpi_r16_interrupts_on.op_code = CPI ∧ cpi_r16_interrupts_on.op1 = R16
      ∧ cpi_r16_interrupts_on.op2 = 0x00 ∧ cpi_r16_interrupts_on.reg.getD R16 0 = 0
      ∧ read cpi_r16_interrupts_on.run_next_state.sr Z ≠ 0
      ∧ cpi_r16_interrupts_on.run_next_state.reg.getD R16 0 = 0)
    ∧ (cpi_r16_interrupts_on.op_code = CPI →
        cpi_r16_interrupts_on.run_next_state.reg = cpi_r16_interrupts_on.reg
          ∧ (read cpi_r16_interrupts_on.run_next_state.sr Z ≠ 0
              ↔ cpi_r16_interrupts_on.reg.getD cpi_r16_interrupts_on.op1 0
                  = cpi_r16_interrupts_on.op2))
      ∧ (cpi_r16_interrupts_on.op_code = CP → cpi_r16_interrupts_on.op2 < 32 →
        cpi_r16_interrupts_on.run_next_state.reg = cpi_r16_interrupts_on.reg
          ∧ (read cpi_r16_interrupts_on.run_next_state.sr Z ≠ 0
              ↔ cpi_r16_interrupts_on.reg.getD cpi_r16_interrupts_on.op1 0
                  = cpi_r16_interrupts_on.reg.getD cpi_r16_interrupts_on.op2 0)) :=
  ⟨by decide!,
    compare_sets_zero_flag cpi_r16_interrupts_on (by decide!) (by decide!) (by decide!)
      (by decide!) (by decide!)⟩

end cpu

namespace cpu

namespace data_memory

theorem read_write_same (m : data_memory) (a v : Nat) (h : a % 65536 < m.data.length) :
    (m.write a v).1.read a = v := by
  simp [write, read, address_width, h]

theorem read_write_other (m : data_memory) (a b v : Nat) (hne : a % 65536 ≠ b % 65536) :
    (m.write a v).1.read b = m.read b := by
  unfold write
  split
  · simp [read, address_width, List.getElem?_set, hne]
  · rfl

theorem write_length (m : data_memory) (a v : Nat) :
    (m.write a v).1.data.length = m.data.length := by
  unfold write
  split
  · simp
  · rfl

end data_memory

theorem getD_set_same (l : List Nat) (i v : Nat) (h : i < l.length) : (l.set i v).getD i 0 = v := by
  simp [h]

theorem getD_set_other (l : List Nat) (i j v : Nat) (h : i ≠ j) :
    (l.set i v).getD j 0 = l.getD j 0 := by
  simp [List.getElem?_set, h]

/-! ## Wide memory access -/

open control_unit

/-- C13: with a 2000-byte data space, 32 registers, `s <= 30`, `d <= 30` and
an 8-bit address, executing STS addr,s stores `reg[s]` at `data[addr]` and
`reg[s+1]` at `data[addr+1]` and leaves the registers alone; executing
LDS d,addr on the data space and registers so obtained sets `reg[d]` to the
old `reg[s]` and `reg[d+1]` to the old `reg[s+1]` and leaves every other
register unchanged.  The interrupt monitor touches neither the registers
nor the data space, so this holds for whole `run_next_state` calls. -/
theorem sts_lds_roundtrip (cu : control_unit) (s d addr : Nat) (hs : s ≤ 30) (hd : d ≤ 30)
    (haddr : addr < 256) (hmem : cu.data_mem.data.length = 2000) (hreg : cu.reg.length = 32)
    (hst : cu.current_state = state.execute) (hop : cu.op_code = STS)
    (h1 : cu.op1 = addr) (h2 : cu.op2 = s) :
    cu.run_next_state.data_mem.read addr = cu.reg.getD s 0
      ∧ cu.run_next_state.data_mem.read (addr + 1) = cu.reg.getD (s + 1) 0
      ∧ cu.run_next_state.reg = cu.reg
      ∧ (∀ cu2 : control_unit, cu2.current_state = state.execute → cu2.op_code = LDS →
          cu2.op1 = d → cu2.op2 = addr → cu2.data_mem = cu.run_next_state.data_mem →
          cu2.reg = cu.run_next_state.reg →
          cu2.run_next_state.reg.getD d 0 = cu.reg.getD s 0
            ∧ cu2.run_next_state.reg.getD (d + 1) 0 = cu.reg.getD (s + 1) 0
            ∧ (∀ k, k ≠ d → k ≠ d + 1 →
                cu2.run_next_state.reg.getD k 0 = cu.reg.getD k 0)
            ∧ cu2.run_next_state.reg.length = 32) := by
  obtain ⟨hr, hm, -⟩ := run_next_state_frame cu
  rw [run_phase_execute cu hst] at hr hm
  have hs32 : s < NUM_REGISTERS := by unfold NUM_REGISTERS; omega
  have hsmod : (s + 1) % 256 = s + 1 := by omega
  have hx : cu.execute_dispatch =
      { cu with data_mem :=
          (((cu.data_mem.write addr (cu.reg.getD s 0)).1).write (addr + 1)
            (cu.reg.getD (s + 1) 0)).1 } := by
    simp [execute_dispatch, hop, h1, h2, hs32, hsmod, STS, LDI, MOV, OUT, IN]
  have hreg1 : cu.run_next_state.reg = cu.reg := by
    rw [hr]; simp only [execute_phase, hx]
  have hmem1 : cu.run_next_state.data_mem =
      (((cu.data_mem.write addr (cu.reg.getD s 0)).1).write (addr + 1)
        (cu.reg.getD (s + 1) 0)).1 := by
    rw [hm]; simp only [execute_phase, hx]
  have hlen1 := data_memory.write_length cu.data_mem addr (cu.reg.getD s 0)
  have hread0 : cu.run_next_state.data_mem.read addr = cu.reg.getD s 0 := by
    rw [hmem1, data_memory.read_write_other _ _ _ _ (by omega)]
    exact data_memory.read_write_same _ _ _ (by omega)
  have hread1 : cu.run_next_state.data_mem.read (addr + 1) = cu.reg.getD (s + 1) 0 := by
    rw [hmem1]
    exact data_memory.read_write_same _ _ _ (by omega)
  refine ⟨hread0, hread1, hreg1, ?_⟩
  intro cu2 hst2 hop2 hd1 hd2 hdm2 hrg2
  obtain ⟨hr2, -, -⟩ := run_next_state_frame cu2
  rw [run_phase_execute cu2 hst2] at hr2
  have hd32 : d < NUM_REGISTERS := by unfold NUM_REGISTERS; omega
  have hdmod : (d + 1) % 256 = d + 1 := by omega
  have hx2 : cu2.execute_dispatch =
      { cu2 with reg :=
          ((cu2.reg.set d (cu2.data_mem.read addr)).set (d + 1)
            (cu2.data_mem.read (addr + 1))) } := by
    simp [execute_dispatch, hop2, hd1, hd2, hd32, hdmod, LDS, STS, LDI, MOV, OUT, IN]
  have hreg2 : cu2.run_next_state.reg =
      (cu.reg.set d (cu.reg.getD s 0)).set (d + 1) (cu.reg.getD (s + 1) 0) := by
    rw [hr2]
    simp only [execute_phase, hx2]
    rw [hdm2, hrg2, hreg1, hread0, hread1]
  rw [hreg2]
  refine ⟨?_, ?_, ?_, ?_⟩
  · rw [getD_set_other _ _ _ _ (by omega)]
    exact getD_set_same _ _ _ (by omega)
  · exact getD_set_same _ _ _ (by simp; omega)
  · intro k hk1 hk2
    rw [getD_set_other _ _ _ _ (Ne.symm hk2), getD_set_other _ _ _ _ (Ne.symm hk1)]
  · simp [hreg]

theorem sts_lds_roundtrip_witness :
    (sts_r16.reg.getD R16 0 = 0x34 ∧ sts_r16.reg.getD (R16 + 1) 0 = 0x12)
    ∧ sts_r16.run_next_state.data_mem.read program_memory.led_enabled = sts_r16.reg.getD R16 0
      ∧ sts_r16.run_next_state.data_mem.read (program_memory.led_enabled + 1)
          = sts_r16.reg.getD (R16 + 1) 0
      ∧ sts_r16.run_next_state.reg = sts_r16.reg
      ∧ (∀ cu2 : control_unit, cu2.current_state = state.execute → cu2.op_code = LDS →
          cu2.op1 = R24 → cu2.op2 = program_memory.led_enabled →
          cu2.data_mem = sts_r16.run_next_state.data_mem →
          cu2.reg = sts_r16.run_next_state.reg →
          cu2.run_next_state.reg.getD R24 0 = sts_r16.reg.getD R16 0
            ∧ cu2.run_next_state.reg.getD (R24 + 1) 0 = sts_r16.reg.getD (R16 + 1) 0
            ∧ (∀ k, k ≠ R24 → k ≠ R24 + 1 →
                cu2.run_next_state.reg.getD k 0 = sts_r16.reg.getD k 0)
            ∧ cu2.run_next_state.reg.length = 32) :=
  ⟨by decide!,
    sts_lds_roundtrip sts_r16 R16 R24 program_memory.led_enabled (by decide) (by decide)
      (by decide) (by decide!) (by decide!) (by decide!) (by decide!) (by decide!) (by decide!)⟩

end cpu

namespace cpu

theorem stack.last_element_of_content (s : stack) (v : Nat) (rest : List Nat) (hwf : s.wf)
    (hc : s.content = v :: rest) : s.last_element = v := by
  have h := (stack.pop_ok s 0 v rest hwf hc).1
  cases he : s.stack_empty with
  | true => simp [stack.content, he] at hc
  | false =>
    unfold stack.pop at h
    simp only [he, Bool.false_eq_true, if_false] at h
    unfold stack.last_element
    split at h
    · exact congrArg Prod.fst h
    · exact congrArg Prod.fst h

/-! ## Subroutine call and return -/

open control_unit

/-- C15: in the execute phase with `op_code = CALL`, a stack that is not
completely full and no interrupt taken by the monitor, one `run_next_state`
call ends with `pc = op1` and the old `pc` on top of the stack, above the
previous content; executing RET on the stack so obtained (again with no
interrupt taken) sets `pc` back to that old value and leaves the stack with
the content it had before the CALL. -/
theorem call_ret_roundtrip (cu : control_unit) (hst : cu.current_state = state.execute)
    (hop : cu.op_code = CALL) (hwf : cu.stack.wf) (hfree : 1 ≤ cu.stack.free_slots)
    (hno : cu.run_phase.pending_interrupts = 0) :
    cu.run_next_state.pc = cu.op1
      ∧ cu.run_next_state.stack.last_element = cu.pc
      ∧ cu.run_next_state.stack.content = cu.pc :: cu.stack.content
      ∧ (∀ cu2 : control_unit, cu2.current_state = state.execute → cu2.op_code = RET →
          cu2.stack = cu.run_next_state.stack → cu2.run_phase.pending_interrupts = 0 →
          cu2.run_next_state.pc = cu.pc
            ∧ cu2.run_next_state.stack.content = cu.stack.content) := by
  have hfit : cu.stack.content.length < cu.stack.data.length := by
    unfold stack.free_slots at hfree
    omega
  obtain ⟨-, hwf1, hc1, -⟩ := stack.push_ok cu.stack cu.pc hwf hfit
  have hx : cu.execute_dispatch = { cu with stack := (cu.stack.push cu.pc).1, pc := cu.op1 } := by
    simp [execute_dispatch, hop, CALL, LDI, MOV, OUT, IN, STS, LDS, ORI, ANDI, XORI, OR, AND,
      XOR, CLR, INC, DEC, CPI, CP, JMP, BREQ, BRNE, BRGE, BRGT, BRLE, BRLT]
  have hrun : cu.run_next_state
      = { cu.execute_phase with last_input := cu.execute_phase.data_mem.read PINB } := by
    rw [run_next_state, monitor_interrupts_none _ hno, run_phase_execute cu hst]
  have hstack : cu.run_next_state.stack = (cu.stack.push cu.pc).1 := by
    rw [hrun]; simp only [execute_phase, hx]
  refine ⟨?_, ?_, ?_, ?_⟩
  · rw [hrun]; simp only [execute_phase, hx]
  · rw [hstack]; exact stack.last_element_of_content _ _ _ hwf1 hc1
  · rw [hstack]; exact hc1
  · intro cu2 hst2 hop2 hs2 hno2
    rw [hstack] at hs2
    obtain ⟨hv, -, hc2, -⟩ := stack.pop_ok (cu.stack.push cu.pc).1 cu2.pc cu.pc cu.stack.content
      hwf1 hc1
    have hx2 : cu2.execute_dispatch
        = { cu2 with stack := (cu2.stack.pop cu2.pc).1, pc := (cu2.stack.pop cu2.pc).2.1 } := by
      simp [execute_dispatch, hop2, RET, CALL, LDI, MOV, OUT, IN, STS, LDS, ORI, ANDI, XORI, OR,
        AND, XOR, CLR, INC, DEC, CPI, CP, JMP, BREQ, BRNE, BRGE, BRGT, BRLE, BRLT]
    have hrun2 : cu2.run_next_state
        = { cu2.execute_phase with last_input := cu2.execute_phase.data_mem.read PINB } := by
      rw [run_next_state, monitor_interrupts_none _ hno2, run_phase_execute cu2 hst2]
    rw [hrun2]
    simp only [execute_phase, hx2, hs2, hv, hc2, and_self]

theorem call_ret_roundtrip_witness :
    (call_setup.pc = program_memory.main_loop ∧ call_setup.op1 = program_memory.setup)
    ∧ call_setup.run_next_state.pc = call_setup.op1
      ∧ call_setup.run_next_state.stack.last_element = call_setup.pc
      ∧ call_setup.run_next_state.stack.content = call_setup.pc :: call_setup.stack.content
      ∧ (∀ cu2 : control_unit, cu2.current_state = state.execute → cu2.op_code = RET →
          cu2.stack = call_setup.run_next_state.stack →
          cu2.run_phase.pending_interrupts = 0 →
          cu2.run_next_state.pc = call_setup.pc
            ∧ cu2.run_next_state.stack.content = call_setup.stack.content) :=
  ⟨by decide!,
    call_ret_roundtrip call_setup (by decide!) (by decide!) (by decide!) (by decide!)
      (by decide!)⟩

end cpu

namespace cpu

namespace control_unit

/-! ## Register subscripts of STS and LDS -/

theorem sts_data_mem_by_indices (cu : control_unit) (hop : cu.op_code = STS) :
    cu.execute_dispatch.data_mem =
      (cu.sts_lds_reg_indices.enum.foldl
        (fun m p => (m.write (cu.op1 + p.1) (cu.reg.getD p.2 0)).1) cu.data_mem) := by
  by_cases h : cu.op2 < NUM_REGISTERS
  · simp [execute_dispatch, sts_lds_reg_indices, hop, h, STS, LDI, MOV, OUT, IN, List.enum,
      List.enumFrom]
  · simp [execute_dispatch, sts_lds_reg_indices, hop, h, STS, LDI, MOV, OUT, IN, List.enum,
      List.enumFrom]

theorem lds_reg_by_indices (cu : control_unit) (hop : cu.op_code = LDS) :
    cu.execute_dispatch.reg =
      (cu.sts_lds_reg_indices.enum.foldl
        (fun r p => r.set p.2 (cu.data_mem.read (cu.op2 + p.1))) cu.reg) := by
  by_cases h : cu.op1 < NUM_REGISTERS
  · simp [execute_dispatch, sts_lds_reg_indices, hop, h, LDS, STS, LDI, MOV, OUT, IN, List.enum,
      List.enumFrom]
  · simp [execute_dispatch, sts_lds_reg_indices, hop, h, LDS, STS, LDI, MOV, OUT, IN, List.enum,
      List.enumFrom]

end control_unit

/-! ## Evaluations at boundary inputs, continued -/

open control_unit

/-- C12: with the frame of a control unit in phase decode on the stack
(`generate_interrupt` applied to `fetched_jmp`) and no interrupt pending,
one `run_next_state` call in the execute phase with `op_code = RETI` ends in
phase fetch, not decode: `return_from_interrupt` does put the saved phase
back, and the `current_state = state::fetch` that closes the execute case
overwrites it. -/
theorem reti_resumes_in_fetch :
    fetched_jmp.current_state = state.decode
      ∧ 42 ≤ fetched_jmp.stack.free_slots
      ∧ reti_after_fetched_jmp.current_state = state.execute
      ∧ reti_after_fetched_jmp.op_code = RETI
      ∧ reti_after_fetched_jmp.stack
          = (fetched_jmp.generate_interrupt program_memory.PCINT0_vect).stack
      ∧ reti_after_fetched_jmp.run_phase.pending_interrupts = 0
      ∧ reti_after_fetched_jmp.return_from_interrupt.current_state = state.decode
      ∧ reti_after_fetched_jmp.run_next_state.current_state = state.fetch
      ∧ reti_after_fetched_jmp.run_next_state.current_state ≠ fetched_jmp.current_state
      ∧ reti_after_fetched_jmp.run_next_state.pc = fetched_jmp.pc
      ∧ reti_after_fetched_jmp.run_next_state.ir = fetched_jmp.ir := by
  decide!

/-- C18: executing `STS led_enabled, R31` indexes `reg` with 31 and then with
32, and executing `LDS R31, led_enabled` does the same: the guard of the
paired access is `operand < NUM_REGISTERS`, which 31 passes, and 32 is not
below the 32 registers of the file. -/
theorem sts_lds_r31_indexes_past_file :
    sts_r31.op_code = STS ∧ sts_r31.op2 = R31 ∧ sts_r31.op2 < 32
      ∧ sts_r31.reg.length = NUM_REGISTERS
      ∧ sts_r31.sts_lds_reg_indices = [31, 32]
      ∧ ¬ (∀ i ∈ sts_r31.sts_lds_reg_indices, i < NUM_REGISTERS)
      ∧ lds_r31.op_code = LDS ∧ lds_r31.op1 = R31 ∧ lds_r31.op1 < 32
      ∧ lds_r31.reg.length = NUM_REGISTERS
      ∧ lds_r31.sts_lds_reg_indices = [31, 32]
      ∧ ¬ (∀ i ∈ lds_r31.sts_lds_reg_indices, i < NUM_REGISTERS) := by
  decide!

end cpu

namespace cpu

namespace stack

/-! ## The stack invariant over call sequences -/

theorem push_wf (s : stack) (v : Nat) (hwf : s.wf) :
    (s.push v).1.wf ∧ (s.push v).1.data.length = s.data.length := by
  by_cases h : s.content.length < s.data.length
  · obtain ⟨-, h1, -, h2⟩ := push_ok s v hwf h
    exact ⟨h1, h2⟩
  · have hle : s.content.length ≤ s.data.length := by
      unfold content
      split
      · simp
      · simp
    rw [push_full s v hwf (by omega)]
    exact ⟨hwf, rfl⟩

theorem pop_wf (s : stack) (r : Nat) (hwf : s.wf) :
    (s.pop r).1.wf ∧ (s.pop r).1.data.length = s.data.length := by
  cases hc : s.content with
  | nil =>
    rw [pop_empty s r (stack_empty_of_content_nil s hwf hc)]
    exact ⟨hwf, rfl⟩
  | cons v rest =>
    obtain ⟨-, h1, -, h2⟩ := pop_ok s r v rest hwf hc
    exact ⟨h1, by rw [h2]⟩

theorem reset_wf (s : stack) (hwf : s.wf) :
    s.reset.wf ∧ s.reset.data.length = s.data.length ∧ s.reset.content = [] := by
  obtain ⟨hsp, hlen, -⟩ := hwf
  have hp := size_t_pred_eq s.data.length (by omega) hlen
  simp only [reset, wf, content, address_width, hp, List.length_map]
  simp
  omega

theorem apply_op_wf (s : stack) (op : stack_op) (hwf : s.wf) :
    (s.apply_op op).wf ∧ (s.apply_op op).data.length = s.data.length := by
  cases op with
  | push v => exact push_wf s v hwf
  | pop => exact pop_wf s 0 hwf
  | reset => exact ⟨(reset_wf s hwf).1, (reset_wf s hwf).2.1⟩

theorem run_ops_wf (ops : List stack_op) : ∀ s : stack, s.wf →
    (s.run_ops ops).wf ∧ (s.run_ops ops).data.length = s.data.length := by
  induction ops with
  | nil => intro s hwf; exact ⟨hwf, rfl⟩
  | cons op ops ih =>
    intro s hwf
    obtain ⟨h1, h2⟩ := apply_op_wf s op hwf
    obtain ⟨h3, h4⟩ := ih (s.apply_op op) h1
    exact ⟨h3, by rw [← h2, ← h4]; rfl⟩

theorem push_empty (s : stack) (v : Nat) (h : s.stack_empty = true) :
    s.push v = ({ s with data := s.data.set s.sp v, stack_empty := false }, 0) := by
  simp [push, h]

end stack

end cpu

namespace cpu

/-! ## Reachable stack states -/

/-- C22: in every stack state reached from `init(c)`, `1 <= c`, by any
sequence of push, pop and reset calls, the buffer still has `c` slots,
`sp < c`, and a set empty flag implies `sp = c - 1`; so a push onto such an
empty stack returns 0, stores the value at index `c - 1` (changing no other
slot), leaves `sp` unchanged and clears the empty flag. -/
theorem stack_invariant_reachable (c : Nat) (ops : List stack_op) (hc : 1 ≤ c)
    (hc64 : c < 2 ^ 64) :
    ((stack.ctor.init c).run_ops ops).data.length = c
      ∧ ((stack.ctor.init c).run_ops ops).sp < c
      ∧ (((stack.ctor.init c).run_ops ops).stack_empty = true →
          ((stack.ctor.init c).run_ops ops).sp = c - 1)
      ∧ (((stack.ctor.init c).run_ops ops).stack_empty = true → ∀ v : Nat,
          (((stack.ctor.init c).run_ops ops).push v).2 = 0
            ∧ (((stack.ctor.init c).run_ops ops).push v).1.data
                = ((stack.ctor.init c).run_ops ops).data.set (c - 1) v
            ∧ (((stack.ctor.init c).run_ops ops).push v).1.data.getD (c - 1) 0 = v
            ∧ (((stack.ctor.init c).run_ops ops).push v).1.sp
                = ((stack.ctor.init c).run_ops ops).sp
            ∧ (((stack.ctor.init c).run_ops ops).push v).1.stack_empty = false) := by
  obtain ⟨hwf0, -, hl0, -, -⟩ := stack.wf_init c hc hc64
  obtain ⟨hwf, hlen⟩ := stack.run_ops_wf ops (stack.ctor.init c) hwf0
  rw [hl0] at hlen
  obtain ⟨hsp, -, hemp⟩ := hwf
  have hsp1 : ((stack.ctor.init c).run_ops ops).stack_empty = true →
      ((stack.ctor.init c).run_ops ops).sp = c - 1 := by
    intro h
    have := hemp h
    omega
  refine ⟨hlen, by omega, hsp1, ?_⟩
  intro h v
  rw [stack.push_empty _ v h, hsp1 h]
  refine ⟨rfl, rfl, ?_, rfl, rfl⟩
  simp only []
  rw [List.getD_eq_getElem _ _ (by rw [List.length_set]; omega)]
  simp

theorem stack_invariant_reachable_witness :
    ((stack.ctor.init 3).run_ops
        [stack_op.push 4, stack_op.push 5, stack_op.pop, stack_op.reset]).data.length = 3
      ∧ ((stack.ctor.init 3).run_ops
          [stack_op.push 4, stack_op.push 5, stack_op.pop, stack_op.reset]).sp < 3
      ∧ (((stack.ctor.init 3).run_ops
            [stack_op.push 4, stack_op.push 5, stack_op.pop, stack_op.reset]).stack_empty
              = true →
          ((stack.ctor.init 3).run_ops
            [stack_op.push 4, stack_op.push 5, stack_op.pop, stack_op.reset]).sp = 3 - 1)
      ∧ (((stack.ctor.init 3).run_ops
            [stack_op.push 4, stack_op.push 5, stack_op.pop, stack_op.reset]).stack_empty
              = true → ∀ v : Nat,
          (((stack.ctor.init 3).run_ops
              [stack_op.push 4, stack_op.push 5, stack_op.pop, stack_op.reset]).push v).2 = 0
            ∧ (((stack.ctor.init 3).run_ops
                [stack_op.push 4, stack_op.push 5, stack_op.pop, stack_op.reset]).push v).1.data
                = ((stack.ctor.init 3).run_ops
                    [stack_op.push 4, stack_op.push 5, stack_op.pop, stack_op.reset]).data.set
                      (3 - 1) v
            ∧ (((stack.ctor.init 3).run_ops
                [stack_op.push 4, stack_op.push 5, stack_op.pop,
                  stack_op.reset]).push v).1.data.getD (3 - 1) 0 = v
            ∧ (((stack.ctor.init 3).run_ops
                [stack_op.push 4, stack_op.push 5, stack_op.pop, stack_op.reset]).push v).1.sp
                = ((stack.ctor.init 3).run_ops
                    [stack_op.push 4, stack_op.push 5, stack_op.pop, stack_op.reset]).sp
            ∧ (((stack.ctor.init 3).run_ops
                [stack_op.push 4, stack_op.push 5, stack_op.pop,
                  stack_op.reset]).push v).1.stack_empty = false) :=
  stack_invariant_reachable 3 [stack_op.push 4, stack_op.push 5, stack_op.pop, stack_op.reset]
    (by decide) (by decide)

end cpu

namespace cpu

namespace stack

/-! ## The element count -/

theorem num_elements_of_wf (s : stack) (hwf : s.wf) :
    s.num_elements = s.data.length - 1 - s.sp := by
  obtain ⟨hsp, hlen, -⟩ := hwf
  have hp := size_t_pred_eq s.data.length (by omega) hlen
  unfold num_elements address_width
  rw [hp]
  omega

theorem num_elements_vs_content (s : stack) (hwf : s.wf) :
    s.num_elements = s.content.length - 1 := by
  rw [num_elements_of_wf s hwf]
  obtain ⟨hsp, -, hemp⟩ := hwf
  cases he : s.stack_empty with
  | true =>
    have := hemp he
    simp [content, he]
    omega
  | false =>
    rw [content_length_of_nonempty s he]
    omega

theorem count_op_eq_content_length (s : stack) (op : stack_op) (hwf : s.wf) :
    s.count_op s.content.length op = (s.apply_op op).content.length := by
  cases op with
  | push v =>
    by_cases h : s.content.length < s.data.length
    · obtain ⟨h0, -, hc, -⟩ := push_ok s v hwf h
      simp [count_op, apply_op, h0, hc]
    · have hle : s.content.length ≤ s.data.length := by
        unfold content
        split <;> simp
      have hfull := push_full s v hwf (by omega)
      simp [count_op, apply_op, hfull]
  | pop =>
    cases hc : s.content with
    | nil =>
      have hp := pop_empty s 0 (stack_empty_of_content_nil s hwf hc)
      simp [count_op, apply_op, hp, hc]
    | cons x rest =>
      obtain ⟨hv, -, hc2, -⟩ := pop_ok s 0 x rest hwf hc
      have h0 : (s.pop 0).2.2 = 0 := by rw [hv]
      simp [count_op, apply_op, h0, hc2]
  | reset =>
    simp [count_op, apply_op, (reset_wf s hwf).2.2]

theorem held_eq_content_length (ops : List stack_op) : ∀ s : stack, s.wf →
    s.held s.content.length ops = (s.run_ops ops).content.length := by
  induction ops with
  | nil => intro s _; rfl
  | cons op ops ih =>
    intro s hwf
    have h := ih (s.apply_op op) (apply_op_wf s op hwf).1
    simp only [held, run_ops, List.foldl_cons] at h ⊢
    rw [count_op_eq_content_length s op hwf]
    exact h

theorem num_elements_reachable (c : Nat) (ops : List stack_op) (hc : 1 ≤ c)
    (hc64 : c < 2 ^ 64) :
    ((ctor.init c).run_ops ops).num_elements = c - 1 - ((ctor.init c).run_ops ops).sp
      ∧ ((ctor.init c).run_ops ops).num_elements = (ctor.init c).held 0 ops - 1 := by
  obtain ⟨hwf0, hc0, hl0, -, -⟩ := wf_init c hc hc64
  obtain ⟨hwf, hlen⟩ := run_ops_wf ops (ctor.init c) hwf0
  have hheld := held_eq_content_length ops (ctor.init c) hwf0
  rw [hc0] at hheld
  refine ⟨?_, ?_⟩
  · rw [num_elements_of_wf _ hwf, hlen, hl0]
  · rw [num_elements_vs_content _ hwf]
    simp only [List.length_nil] at hheld
    rw [hheld]

end stack

/-- C21: on a stack initialised with capacity 4, after one successful push
(one element held, the stack far from full) `num_elements` returns
`4 - 1 - sp = 0`, and after two successful pushes it returns 1: the first
push does not move `sp`, so the count is one short on every non-empty
stack, not only on the full one (four pushes, count 3). -/
theorem num_elements_after_one_push :
    ((stack.ctor.init 4).push 7).2 = 0
      ∧ (stack.ctor.init 4).held 0 [stack_op.push 7] = 1
      ∧ ((stack.ctor.init 4).run_ops [stack_op.push 7]).content = [7]
      ∧ ((stack.ctor.init 4).run_ops [stack_op.push 7]).sp = 3
      ∧ ((stack.ctor.init 4).run_ops [stack_op.push 7]).num_elements = 0
      ∧ (stack.ctor.init 4).held 0 [stack_op.push 7, stack_op.push 8] = 2
      ∧ ((stack.ctor.init 4).run_ops [stack_op.push 7, stack_op.push 8]).num_elements = 1
      ∧ (stack.ctor.init 4).held 0
          [stack_op.push 7, stack_op.push 8, stack_op.push 9, stack_op.push 10] = 4
      ∧ ((stack.ctor.init 4).run_ops
          [stack_op.push 7, stack_op.push 8, stack_op.push 9, stack_op.push 10]).num_elements
          = 3 := by
  decide!

end cpu

namespace cpu

namespace stack

/-! ## Popping a known content -/

theorem pop_exists (s : stack) (v : Nat) (rest : List Nat) (hwf : s.wf)
    (hc : s.content = v :: rest) :
    ∃ t : stack, (∀ r, s.pop r = (t, v, 0)) ∧ t.wf ∧ t.content = rest
      ∧ t.data.length = s.data.length := by
  refine ⟨(s.pop 0).1, ?_, ?_, ?_, ?_⟩
  · intro r
    have h1 := (pop_ok s r v rest hwf hc).1
    have h2 : (s.pop r).1 = (s.pop 0).1 := by
      cases he : s.stack_empty with
      | true => simp [content, he] at hc
      | false => simp only [pop, he, Bool.false_eq_true, if_false]
    rw [← h2, ← h1]
  · exact (pop_ok s 0 v rest hwf hc).2.1
  · exact (pop_ok s 0 v rest hwf hc).2.2.1
  · rw [(pop_ok s 0 v rest hwf hc).2.2.2]

theorem sp_flag_of_content (s t : stack) (hs : s.wf) (ht : t.wf)
    (hlen : s.data.length = t.data.length) (hc : s.content = t.content) :
    s.sp = t.sp ∧ s.stack_empty = t.stack_empty := by
  obtain ⟨hs1, -, hs3⟩ := hs
  obtain ⟨ht1, -, ht3⟩ := ht
  have hl : s.content.length = t.content.length := by rw [hc]
  cases hes : s.stack_empty with
  | true =>
    cases het : t.stack_empty with
    | true =>
      have := hs3 hes
      have := ht3 het
      exact ⟨by omega, rfl⟩
    | false =>
      rw [content_length_of_nonempty t het] at hl
      simp [content, hes] at hl
      omega
  | false =>
    cases het : t.stack_empty with
    | true =>
      rw [content_length_of_nonempty s hes] at hl
      simp [content, het] at hl
      omega
    | false =>
      rw [content_length_of_nonempty s hes, content_length_of_nonempty t het] at hl
      exact ⟨by omega, rfl⟩

end stack

namespace control_unit

theorem pop_registers_exists (regs : List Nat) : ∀ (ys : List Nat) (s : cpu.stack)
    (rest : List Nat), regs.length = ys.length → s.wf → s.content = ys ++ rest →
    ∃ t : cpu.stack, pop_registers s regs = (t, ys) ∧ t.wf ∧ t.content = rest
      ∧ t.data.length = s.data.length := by
  induction regs with
  | nil =>
    intro ys s rest hlen hwf hc
    have hys : ys = [] := List.length_eq_zero.1 hlen.symm
    subst hys
    exact ⟨s, rfl, hwf, by simpa using hc, rfl⟩
  | cons x xs ih =>
    intro ys s rest hlen hwf hc
    cases ys with
    | nil => simp at hlen
    | cons y ys =>
      obtain ⟨t1, hp, hwf1, hc1, hl1⟩ := stack.pop_exists s y (ys ++ rest) hwf (by simpa using hc)
      obtain ⟨t2, hpr, hwf2, hc2, hl2⟩ := ih ys t1 rest (by simpa using hlen) hwf1 hc1
      refine ⟨t2, ?_, hwf2, hc2, by rw [hl2, hl1]⟩
      simp only [pop_registers, hp, hpr]

theorem return_from_interrupt_of_content (cu : control_unit) (regs : List Nat)
    (st o2 o1 oc b0 b1 b2 s m p : Nat) (rest : List Nat) (hwf : cu.stack.wf)
    (hlen : cu.reg.length = regs.length)
    (hc : cu.stack.content = regs ++ ([st, o2, o1, oc, b0, b1, b2, s, m, p] ++ rest)) :
    cu.return_from_interrupt.reg = regs
      ∧ cu.return_from_interrupt.current_state = st
      ∧ cu.return_from_interrupt.op2 = o2
      ∧ cu.return_from_interrupt.op1 = o1
      ∧ cu.return_from_interrupt.op_code = oc
      ∧ cu.return_from_interrupt.ir = (b0 ||| (b1 <<< 8)) ||| (b2 <<< 16)
      ∧ cu.return_from_interrupt.sr = s
      ∧ cu.return_from_interrupt.mar = m
      ∧ cu.return_from_interrupt.pc = p
      ∧ cu.return_from_interrupt.stack.wf
      ∧ cu.return_from_interrupt.stack.content = rest
      ∧ cu.return_from_interrupt.stack.data.length = cu.stack.data.length := by
  obtain ⟨t0, hpr, hw0, hc0, hl0⟩ := pop_registers_exists cu.reg regs cu.stack _ hlen hwf hc
  obtain ⟨t1, hp1, hw1, hc1, hl1⟩ := stack.pop_exists t0 st _ hw0 hc0
  obtain ⟨t2, hp2, hw2, hc2, hl2⟩ := stack.pop_exists t1 o2 _ hw1 hc1
  obtain ⟨t3, hp3, hw3, hc3, hl3⟩ := stack.pop_exists t2 o1 _ hw2 hc2
  obtain ⟨t4, hp4, hw4, hc4, hl4⟩ := stack.pop_exists t3 oc _ hw3 hc3
  obtain ⟨t5, hp5, hw5, hc5, hl5⟩ := stack.pop_exists t4 b0 _ hw4 hc4
  obtain ⟨t6, hp6, hw6, hc6, hl6⟩ := stack.pop_exists t5 b1 _ hw5 hc5
  obtain ⟨t7, hp7, hw7, hc7, hl7⟩ := stack.pop_exists t6 b2 _ hw6 hc6
  obtain ⟨t8, hp8, hw8, hc8, hl8⟩ := stack.pop_exists t7 s _ hw7 hc7
  obtain ⟨t9, hp9, hw9, hc9, hl9⟩ := stack.pop_exists t8 m _ hw8 hc8
  obtain ⟨t10, hp10, hw10, hc10, hl10⟩ := stack.pop_exists t9 p _ hw9 hc9
  simp only [return_from_interrupt, hpr, hp1, hp2, hp3, hp4, hp5, hp6, hp7, hp8, hp9, hp10,
    true_and]
  refine ⟨hw10, hc10, ?_⟩
  rw [hl10, hl9, hl8, hl7, hl6, hl5, hl4, hl3, hl2, hl1, hl0]

end control_unit

end cpu

namespace cpu

theorem ir_bytes_reassemble (ir : Nat) (h : ir < 2 ^ 24) :
    (ir % 256 ||| (((ir >>> 8) % 256) <<< 8)) ||| (((ir >>> 16) % 256) <<< 16) = ir := by
  apply Nat.eq_of_testBit_eq
  intro i
  have h256 : (256 : Nat) = 2 ^ 8 := by norm_num
  rw [h256]
  simp only [Nat.testBit_or, Nat.testBit_shiftLeft, Nat.testBit_mod_two_pow,
    Nat.testBit_shiftRight]
  by_cases h1 : i < 8
  · have h2 : ¬ (i ≥ 8) := by omega
    have h3 : ¬ (i ≥ 16) := by omega
    simp [h1, h2, h3]
  · by_cases h2 : i < 16
    · have h3 : ¬ (i ≥ 16) := by omega
      have h4 : i - 8 < 8 := by omega
      have h5 : 8 + (i - 8) = i := by omega
      simp [h1, h3, h4, h5, (by omega : 8 ≤ i)]
    · by_cases h3 : i < 24
      · have h4 : i - 16 < 8 := by omega
        have h5 : 16 + (i - 16) = i := by omega
        have h6 : ¬ (i - 8 < 8) := by omega
        simp [h1, h4, h5, h6, (by omega : 8 ≤ i), (by omega : 16 ≤ i)]
      · have h4 : ¬ (i - 16 < 8) := by omega
        have h6 : ¬ (i - 8 < 8) := by omega
        have h7 : ir.testBit i = false := by
          apply Nat.testBit_lt_two_pow
          calc ir < 2 ^ 24 := h
            _ ≤ 2 ^ i := Nat.pow_le_pow_right (by norm_num) (by omega)
        simp [h1, h4, h6, h7]

theorem getD_reverse (l : List Nat) (i : Nat) (h : i < l.length) :
    l.reverse.getD i 0 = l.getD (l.length - 1 - i) 0 := by
  rw [List.getD_eq_getElem _ _ (by simpa using h), List.getD_eq_getElem _ _ (by omega),
    List.getElem_reverse]

/-! ## Interrupt entry followed by return -/

open control_unit

/-- C23: for a control unit with a well-formed stack holding at least 42 free
slots, 32 registers, `ir < 2^24` and a valid phase, `generate_interrupt v`
followed by `return_from_interrupt` restores pc, mar, sr, ir, op_code, op1,
op2, the phase, and the stack's content, `sp` and empty flag, and leaves the
register file reversed: the new `reg[i]` is the old `reg[31 - i]` for every
`i < 32`. -/
theorem interrupt_roundtrip_reverses_registers (cu : control_unit) (v : Nat)
    (hwf : cu.stack.wf) (hreg : cu.reg.length = 32) (hfree : 42 ≤ cu.stack.free_slots)
    (hir : cu.ir < 2 ^ 24)
    (hphase : cu.current_state = state.fetch ∨ cu.current_state = state.decode
      ∨ cu.current_state = state.execute) :
    (cu.generate_interrupt v).return_from_interrupt.pc = cu.pc
      ∧ (cu.generate_interrupt v).return_from_interrupt.mar = cu.mar
      ∧ (cu.generate_interrupt v).return_from_interrupt.sr = cu.sr
      ∧ (cu.generate_interrupt v).return_from_interrupt.ir = cu.ir
      ∧ (cu.generate_interrupt v).return_from_interrupt.op_code = cu.op_code
      ∧ (cu.generate_interrupt v).return_from_interrupt.op1 = cu.op1
      ∧ (cu.generate_interrupt v).return_from_interrupt.op2 = cu.op2
      ∧ (cu.generate_interrupt v).return_from_interrupt.current_state = cu.current_state
      ∧ (cu.generate_interrupt v).return_from_interrupt.stack.content = cu.stack.content
      ∧ (cu.generate_interrupt v).return_from_interrupt.stack.sp = cu.stack.sp
      ∧ (cu.generate_interrupt v).return_from_interrupt.stack.stack_empty
          = cu.stack.stack_empty
      ∧ (cu.generate_interrupt v).return_from_interrupt.reg = cu.reg.reverse
      ∧ (∀ i, i < 32 →
          (cu.generate_interrupt v).return_from_interrupt.reg.getD i 0
            = cu.reg.getD (31 - i) 0) := by
  obtain ⟨hwf1, hc1, hl1⟩ := generate_interrupt_frame cu v hwf hreg hfree
  have hframe : cu.context_frame.reverse ++ cu.stack.content
      = cu.reg.reverse ++ ([cu.current_state % 256, cu.op2, cu.op1, cu.op_code, cu.ir % 256,
          (cu.ir >>> 8) % 256, (cu.ir >>> 16) % 256, cu.sr, cu.mar, cu.pc]
            ++ cu.stack.content) := by
    simp [context_frame]
  rw [hframe] at hc1
  obtain ⟨h1, h2, h3, h4, h5, h6, h7, h8, h9, hw, hc, hl⟩ :=
    return_from_interrupt_of_content (cu.generate_interrupt v) cu.reg.reverse _ _ _ _ _ _ _ _ _
      _ _ hwf1 (by simp [generate_interrupt]) hc1
  have hst : cu.current_state % 256 = cu.current_state := by
    rcases hphase with h | h | h <;> rw [h] <;> decide
  obtain ⟨hsp, hflag⟩ := stack.sp_flag_of_content _ _ hw hwf (by rw [hl, hl1]) hc
  refine ⟨h9, h8, h7, ?_, h5, h4, h3, ?_, hc, hsp, hflag, h1, ?_⟩
  · rw [h6]; exact ir_bytes_reassemble cu.ir hir
  · rw [h2]; exact hst
  · intro i hi
    rw [h1, getD_reverse _ _ (by omega), hreg]

theorem interrupt_roundtrip_reverses_registers_witness :
    (regs_counted.reg.getD 0 0 = 0 ∧ regs_counted.reg.getD 31 0 = 31
      ∧ (regs_counted.generate_interrupt 2).return_from_interrupt.reg.getD 0 0 = 31)
    ∧ (regs_counted.generate_interrupt 2).return_from_interrupt.pc = regs_counted.pc
      ∧ (regs_counted.generate_interrupt 2).return_from_interrupt.mar = regs_counted.mar
      ∧ (regs_counted.generate_interrupt 2).return_from_interrupt.sr = regs_counted.sr
      ∧ (regs_counted.generate_interrupt 2).return_from_interrupt.ir = regs_counted.ir
      ∧ (regs_counted.generate_interrupt 2).return_from_interrupt.op_code
          = regs_counted.op_code
      ∧ (regs_counted.generate_interrupt 2).return_from_interrupt.op1 = regs_counted.op1
      ∧ (regs_counted.generate_interrupt 2).return_from_interrupt.op2 = regs_counted.op2
      ∧ (regs_counted.generate_interrupt 2).return_from_interrupt.current_state
          = regs_counted.current_state
      ∧ (regs_counted.generate_interrupt 2).return_from_interrupt.stack.content
          = regs_counted.stack.content
      ∧ (regs_counted.generate_interrupt 2).return_from_interrupt.stack.sp
          = regs_counted.stack.sp
      ∧ (regs_counted.generate_interrupt 2).return_from_interrupt.stack.stack_empty
          = regs_counted.stack.stack_empty
      ∧ (regs_counted.generate_interrupt 2).return_from_interrupt.reg
          = regs_counted.reg.reverse
      ∧ (∀ i, i < 32 →
          (regs_counted.generate_interrupt 2).return_from_interrupt.reg.getD i 0
            = regs_counted.reg.getD (31 - i) 0) :=
  ⟨by decide!,
    interrupt_roundtrip_reverses_registers regs_counted 2 (by decide!) (by decide!) (by decide!)
      (by decide!) (by decide!)⟩

end cpu

namespace cpu

namespace control_unit

/-! ## Several pins changing at once -/

theorem repeat_frame_snoc (f : List Nat) (n : Nat) :
    repeat_frame f n ++ f = f ++ repeat_frame f n := by
  induction n with
  | zero => simp [repeat_frame]
  | succ n ih => simp only [repeat_frame, List.append_assoc, ih]

theorem repeat_frame_length (f : List Nat) (n : Nat) :
    (repeat_frame f n).length = f.length * n := by
  induction n with
  | zero => rfl
  | succ n ih => simp only [repeat_frame, List.length_append, ih]; ring

theorem context_frame_generate_interrupt (cu : control_unit) :
    (cu.generate_interrupt program_memory.PCINT0_vect).context_frame = cu.at_vector.context_frame
      ∧ (cu.generate_interrupt program_memory.PCINT0_vect).at_vector.context_frame
          = cu.at_vector.context_frame := by
  constructor <;> rfl

theorem iterate_generate_interrupt_stack (n : Nat) : ∀ cu : control_unit, cu.stack.wf →
    cu.reg.length = 32 → 42 * (n + 1) ≤ cu.stack.free_slots →
    (Nat.iterate (fun s => s.generate_interrupt program_memory.PCINT0_vect) (n + 1) cu).stack.wf
      ∧ (Nat.iterate (fun s => s.generate_interrupt program_memory.PCINT0_vect)
            (n + 1) cu).stack.content
          = repeat_frame cu.at_vector.context_frame.reverse n
              ++ cu.context_frame.reverse ++ cu.stack.content
      ∧ (Nat.iterate (fun s => s.generate_interrupt program_memory.PCINT0_vect)
            (n + 1) cu).stack.data.length = cu.stack.data.length := by
  induction n with
  | zero =>
    intro cu hwf hreg hfree
    obtain ⟨h1, h2, h3⟩ :=
      generate_interrupt_frame cu program_memory.PCINT0_vect hwf hreg (by omega)
    simpa [repeat_frame] using ⟨h1, h2, h3⟩
  | succ n ih =>
    intro cu hwf hreg hfree
    obtain ⟨h1, h2, h3⟩ :=
      generate_interrupt_frame cu program_memory.PCINT0_vect hwf hreg (by omega)
    have hlen : cu.context_frame.length = 42 := by simp [context_frame, hreg]
    have hfree2 : 42 * (n + 1)
        ≤ (cu.generate_interrupt program_memory.PCINT0_vect).stack.free_slots := by
      unfold stack.free_slots at hfree ⊢
      rw [h2, h3, List.length_append, List.length_reverse, hlen]
      omega
    obtain ⟨g1, g2, g3⟩ := ih (cu.generate_interrupt program_memory.PCINT0_vect) h1 hreg hfree2
    rw [Function.iterate_succ_apply]
    refine ⟨g1, ?_, by rw [g3, h3]⟩
    rw [g2, h2, (context_frame_generate_interrupt cu).1, (context_frame_generate_interrupt cu).2]
    simp only [repeat_frame, ← repeat_frame_snoc, List.append_assoc]

end control_unit

end cpu

namespace cpu

open control_unit

/-- C24: with the I flag and PCIE0 set, `monitor_interrupts` is
`generate_interrupt PCINT0_vect` applied once for each of the `k` bit
positions below 8 that are enabled in PCMSK0 and differ between PINB and the
sampled input (followed by the update of the sampled input).  With 42 * k
free stack slots the call leaves exactly 42 * k more bytes on the stack:
on top of the old content the frame of the control unit as it was, and above
it `k - 1` copies of the frame of the control unit with `pc = PCINT0_vect`
and phase fetch. -/
theorem monitor_pushes_frame_per_bit (cu : control_unit) (k : Nat)
    (hI : read cu.sr I ≠ 0) (hpcie : read (cu.data_mem.read PCICR) PCIE0 ≠ 0)
    (hk : ((List.range 8).filter
      (pin_changed cu.data_mem cu.last_input (cu.data_mem.read PINB))).length = k)
    (hwf : cu.stack.wf) (hreg : cu.reg.length = 32) (hfree : 42 * k ≤ cu.stack.free_slots) :
    cu.monitor_interrupts
        = { Nat.iterate (fun s => s.generate_interrupt program_memory.PCINT0_vect) k cu with
            last_input := cu.data_mem.read PINB }
      ∧ cu.monitor_interrupts.stack.content.length = cu.stack.content.length + 42 * k
      ∧ (k = 0 → cu.monitor_interrupts.stack.content = cu.stack.content)
      ∧ (1 ≤ k → cu.monitor_interrupts.stack.content
          = repeat_frame cu.at_vector.context_frame.reverse (k - 1)
              ++ cu.context_frame.reverse ++ cu.stack.content)
      ∧ cu.at_vector.context_frame.length = 42
      ∧ cu.at_vector.context_frame.getD 0 0 = program_memory.PCINT0_vect
      ∧ cu.at_vector.context_frame.getD 9 0 = state.fetch := by
  have hpend : cu.pending_interrupts = k := by
    have hen : cu.interrupt_enabled = true := by simpa [interrupt_enabled] using hI
    have hp : cu.data_mem.read PCICR &&& (1 <<< PCIE0) ≠ 0 := hpcie
    unfold pending_interrupts
    rw [hen, if_pos rfl, if_pos hp]
    exact hk
  have hmon := monitor_interrupts_eq cu
  rw [hpend] at hmon
  have hstack : cu.monitor_interrupts.stack
      = (Nat.iterate (fun s => s.generate_interrupt program_memory.PCINT0_vect) k cu).stack := by
    rw [hmon]
  have hlen1 : cu.context_frame.length = 42 := by simp [context_frame, hreg]
  have hlen2 : cu.at_vector.context_frame.length = 42 := by
    simp [context_frame, at_vector, hreg]
  have hpos : 1 ≤ k → cu.monitor_interrupts.stack.content
      = repeat_frame cu.at_vector.context_frame.reverse (k - 1)
          ++ cu.context_frame.reverse ++ cu.stack.content := by
    intro h1
    obtain ⟨n, rfl⟩ : ∃ n, k = n + 1 := ⟨k - 1, by omega⟩
    rw [hstack, (iterate_generate_interrupt_stack n cu hwf hreg hfree).2.1]
    rfl
  refine ⟨hmon, ?_, ?_, hpos, hlen2, rfl, rfl⟩
  · rcases Nat.eq_zero_or_pos k with h0 | h1
    · subst h0
      rw [hstack]
      rfl
    · rw [hpos h1]
      simp only [List.length_append, repeat_frame_length, List.length_reverse, hlen1, hlen2]
      omega
  · intro h0
    subst h0
    rw [hstack]
    rfl

theorem monitor_pushes_frame_per_bit_witness :
    (two_pins_changed.pc = 11 ∧ two_pins_changed.current_state = state.execute
      ∧ two_pins_changed.monitor_interrupts.stack.content.length = 84
      ∧ two_pins_changed.monitor_interrupts.stack.content.getD 41 0
          = program_memory.PCINT0_vect
      ∧ two_pins_changed.monitor_interrupts.stack.content.getD 32 0 = state.fetch
      ∧ two_pins_changed.monitor_interrupts.stack.content.getD 83 0 = 11
      ∧ two_pins_changed.monitor_interrupts.stack.content.getD 74 0 = state.execute)
    ∧ two_pins_changed.monitor_interrupts
        = { Nat.iterate (fun s => s.generate_interrupt program_memory.PCINT0_vect) 2
              two_pins_changed with
            last_input := two_pins_changed.data_mem.read PINB }
      ∧ two_pins_changed.monitor_interrupts.stack.content.length
          = two_pins_changed.stack.content.length + 42 * 2
      ∧ (2 = 0 → two_pins_changed.monitor_interrupts.stack.content
          = two_pins_changed.stack.content)
      ∧ (1 ≤ 2 → two_pins_changed.monitor_interrupts.stack.content
          = repeat_frame two_pins_changed.at_vector.context_frame.reverse (2 - 1)
              ++ two_pins_changed.context_frame.reverse ++ two_pins_changed.stack.content)
      ∧ two_pins_changed.at_vector.context_frame.length = 42
      ∧ two_pins_changed.at_vector.context_frame.getD 0 0 = program_memory.PCINT0_vect
      ∧ two_pins_changed.at_vector.context_frame.getD 9 0 = state.fetch :=
  ⟨by decide!,
    monitor_pushes_frame_per_bit two_pins_changed 2 (by decide!) (by decide!) (by decide!)
      (by decide!) (by decide!) (by decide!)⟩

end cpu
